import Mathlib

/-!
Verification of the ECS Pac-Man simulation core.

This file is a shallow embedding, in Lean 4, of the game-logic layer of the
repository: the entity/component registry (`Entity.ts`), the `World`
container (`World.ts`), the selectors, and the six per-tick systems
(`InputSystem`, `GhostAISystem`, `MovementSystem`, `EatingSystem`,
`PowerUpSystem`, `CollisionSystem`), together with the fixed-order pipeline
run by `GameController.update`.

Modelling conventions:
* JavaScript numbers that hold pixel coordinates, speeds and millisecond
  timers are modelled as rationals (`ℚ`); grid coordinates as `ℤ`; entity
  ids, scores, lives, levels and streak counters as `ℕ`.
* `Math.sqrt(d) < c` comparisons (collision / eating thresholds, Clyde's
  distance test) are modelled by the equivalent squared comparison
  `d < c^2`, which is exact for non-negative arguments.
* A JS `Map` is modelled as an association list with unique keys
  (`storeSet` updates in place, `storeDel` filters); a JS `Set` of entity
  ids as a `List ℕ` in insertion order.  Lazily created component stores
  behave exactly like empty ones for get/has/delete, so every store is
  simply present from the start.
* `Math.random()`-driven choices (frightened ghosts) are modelled by an
  explicit oracle argument supplying the chosen index.
-/

namespace Pac

/-- Movement direction, `Direction` in `types`. -/
inductive Direction : Type
  | up
  | down
  | left
  | right
deriving DecidableEq, Repr

/-- Ghost identity, `GhostType` in `types`. -/
inductive GhostType : Type
  | blinky
  | pinky
  | inky
  | clyde
deriving DecidableEq, Repr

/-- Per-ghost behaviour mode, `GhostMode` in `types`. -/
inductive GhostMode : Type
  | chase
  | scatter
  | frightened
  | eaten
deriving DecidableEq, Repr

/-- The global scatter/chase mode carried by `ghost:mode` events
(`'chase' | 'scatter'` in the source). -/
inductive GlobalMode : Type
  | chase
  | scatter
deriving DecidableEq, Repr

/-- Injection of the global mode into `GhostMode`. -/
def GlobalMode.toMode : GlobalMode → GhostMode
  | .chase => .chase
  | .scatter => .scatter

/-- Top-level game state, `GameState` in `utils/constants`. -/
inductive GameState : Type
  | ready
  | playing
  | paused
  | won
  | lost
  | dying
deriving DecidableEq, Repr

/-- An `{x, y}` grid coordinate pair. -/
structure Coord : Type where
  x : Int
  y : Int
deriving DecidableEq, Repr

/-- `Position` component. -/
structure Position : Type where
  gridX : Int
  gridY : Int
  pixelX : ℚ
  pixelY : ℚ
deriving DecidableEq, Repr

/-- `Velocity` component. -/
structure Velocity : Type where
  direction : Option Direction
  speed : ℚ
  nextDirection : Option Direction
deriving DecidableEq, Repr

/-- `GhostAI` component. -/
structure GhostAIComp : Type where
  type : GhostType
  mode : GhostMode
  scatterTarget : Coord
deriving DecidableEq, Repr

/-- `Edible` component. -/
structure Edible : Type where
  points : Int
deriving DecidableEq, Repr

/-- `PowerUp` component. -/
structure PowerUpComp : Type where
  duration : ℚ
deriving DecidableEq, Repr

/-- `Vulnerable` component. -/
structure Vulnerable : Type where
  remainingTime : ℚ
  flashing : Bool
deriving DecidableEq, Repr

/-- `Respawnable` component. -/
structure Respawnable : Type where
  spawnX : Int
  spawnY : Int
  delay : ℚ
  timer : ℚ
deriving DecidableEq, Repr

/-- `Collider` component. -/
structure Collider : Type where
  width : ℚ
  height : ℚ
deriving DecidableEq, Repr

/-- The closed set of component type tags (`ComponentType` in `types`). -/
inductive ComponentType : Type
  | position
  | velocity
  | ghostAI
  | edible
  | powerUp
  | vulnerable
  | respawnable
  | playerControlled
  | collider
deriving DecidableEq, Repr

/-- One component store (`Map<EntityId, Component>` in the source),
modelled as an association list with unique keys. -/
abbrev Store (α : Type) : Type := List (Nat × α)

/-- `Map.get`. -/
def storeGet {α : Type} : Store α → Nat → Option α
  | [], _ => none
  | (k, v) :: rest, i => if k = i then some v else storeGet rest i

/-- `Map.set`: update in place if the key is present, else append. -/
def storeSet {α : Type} : Store α → Nat → α → Store α
  | [], i, v => [(i, v)]
  | (k, w) :: rest, i, v =>
      if k = i then (k, v) :: rest else (k, w) :: storeSet rest i v

/-- `Map.delete`. -/
def storeDel {α : Type} (s : Store α) (i : Nat) : Store α :=
  s.filter (fun e => e.1 ≠ i)

/-- `Map.has`. -/
def storeHas {α : Type} (s : Store α) (i : Nat) : Bool :=
  (storeGet s i).isSome

/-- The entity manager closure state from `Entity.ts`:
`nextId`, the `aliveEntities` set (insertion order), and one store per
component type. -/
structure EntityManager : Type where
  nextId : Nat
  alive : List Nat
  position : Store Position
  velocity : Store Velocity
  ghostAI : Store GhostAIComp
  edible : Store Edible
  powerUp : Store PowerUpComp
  vulnerable : Store Vulnerable
  respawnable : Store Respawnable
  playerControlled : Store Unit
  collider : Store Collider
deriving DecidableEq, Repr

/-- `createEntityManager()`: the initial state of a fresh manager. -/
def emptyManager : EntityManager :=
  ⟨0, [], [], [], [], [], [], [], [], [], []⟩

/-- `createEntity`: returns `nextId++` and adds it to the alive set. -/
def createEntity (m : EntityManager) : Nat × EntityManager :=
  (m.nextId,
   { m with
       nextId := m.nextId + 1
       alive := if m.alive.contains m.nextId then m.alive
                else m.alive ++ [m.nextId] })

/-- `isAlive`. -/
def isAlive (m : EntityManager) (i : Nat) : Bool :=
  m.alive.contains i

/-- `destroyEntity`: early return when the id is not alive, else purge the
id from every component store and drop it from the alive set. -/
def destroyEntity (m : EntityManager) (i : Nat) : EntityManager :=
  if m.alive.contains i then
    { m with
        alive := m.alive.filter (fun x => x ≠ i)
        position := storeDel m.position i
        velocity := storeDel m.velocity i
        ghostAI := storeDel m.ghostAI i
        edible := storeDel m.edible i
        powerUp := storeDel m.powerUp i
        vulnerable := storeDel m.vulnerable i
        respawnable := storeDel m.respawnable i
        playerControlled := storeDel m.playerControlled i
        collider := storeDel m.collider i }
  else m

/-- `hasComponent`, dispatching on the component type tag. -/
def hasComponent (m : EntityManager) (i : Nat) : ComponentType → Bool
  | .position => storeHas m.position i
  | .velocity => storeHas m.velocity i
  | .ghostAI => storeHas m.ghostAI i
  | .edible => storeHas m.edible i
  | .powerUp => storeHas m.powerUp i
  | .vulnerable => storeHas m.vulnerable i
  | .respawnable => storeHas m.respawnable i
  | .playerControlled => storeHas m.playerControlled i
  | .collider => storeHas m.collider i

/-- `removeComponent` (no alive guard in the source). -/
def removeComponent (m : EntityManager) (i : Nat) : ComponentType → EntityManager
  | .position => { m with position := storeDel m.position i }
  | .velocity => { m with velocity := storeDel m.velocity i }
  | .ghostAI => { m with ghostAI := storeDel m.ghostAI i }
  | .edible => { m with edible := storeDel m.edible i }
  | .powerUp => { m with powerUp := storeDel m.powerUp i }
  | .vulnerable => { m with vulnerable := storeDel m.vulnerable i }
  | .respawnable => { m with respawnable := storeDel m.respawnable i }
  | .playerControlled => { m with playerControlled := storeDel m.playerControlled i }
  | .collider => { m with collider := storeDel m.collider i }

/-- A component value paired with its type tag, for the generic
`addComponent(id, type, component)` operation. -/
inductive ComponentValue : Type
  | position (c : Position)
  | velocity (c : Velocity)
  | ghostAI (c : GhostAIComp)
  | edible (c : Edible)
  | powerUp (c : PowerUpComp)
  | vulnerable (c : Vulnerable)
  | respawnable (c : Respawnable)
  | playerControlled
  | collider (c : Collider)
deriving DecidableEq, Repr

/-- `addComponent`: no-op when the id is not alive, else store the value. -/
def addComponent (m : EntityManager) (i : Nat) (c : ComponentValue) : EntityManager :=
  if m.alive.contains i then
    match c with
    | .position c => { m with position := storeSet m.position i c }
    | .velocity c => { m with velocity := storeSet m.velocity i c }
    | .ghostAI c => { m with ghostAI := storeSet m.ghostAI i c }
    | .edible c => { m with edible := storeSet m.edible i c }
    | .powerUp c => { m with powerUp := storeSet m.powerUp i c }
    | .vulnerable c => { m with vulnerable := storeSet m.vulnerable i c }
    | .respawnable c => { m with respawnable := storeSet m.respawnable i c }
    | .playerControlled => { m with playerControlled := storeSet m.playerControlled i () }
    | .collider c => { m with collider := storeSet m.collider i c }
  else m

/-- `getEntitiesWithComponents`: alive entities (in insertion order) that
hold every listed component type. -/
def getEntitiesWithComponents (m : EntityManager) (types : List ComponentType) : List Nat :=
  m.alive.filter (fun i => types.all (fun t => hasComponent m i t))

/-- `getAllEntities`. -/
def getAllEntities (m : EntityManager) : List Nat :=
  m.alive

/-- `clear()`: empties the alive set and every store; `nextId` untouched. -/
def clearRegistry (m : EntityManager) : EntityManager :=
  { m with
      alive := []
      position := []
      velocity := []
      ghostAI := []
      edible := []
      powerUp := []
      vulnerable := []
      respawnable := []
      playerControlled := []
      collider := [] }

/-! ### Store lemmas -/

theorem storeGet_del_self {α : Type} (s : Store α) (i : Nat) :
    storeGet (storeDel s i) i = none := by
  induction s with
  | nil => rfl
  | cons hd tl ih =>
      rcases hd with ⟨k, v⟩
      by_cases hk : k = i
      · simp [storeDel, List.filter, hk] at ih ⊢
        exact ih
      · simpa [storeDel, List.filter, hk, storeGet] using ih

theorem storeGet_del_other {α : Type} (s : Store α) (i j : Nat) (h : j ≠ i) :
    storeGet (storeDel s i) j = storeGet s j := by
  induction s with
  | nil => rfl
  | cons hd tl ih =>
      rcases hd with ⟨k, v⟩
      by_cases hk : k = i
      · subst hk
        simp [storeDel, List.filter, storeGet, Ne.symm h] at ih ⊢
        exact ih
      · by_cases hkj : k = j
        · subst hkj
          simp [storeDel, List.filter, hk, storeGet, h]
        · simp [storeDel, List.filter, hk, storeGet, hkj] at ih ⊢
          exact ih

theorem storeGet_set_self {α : Type} (s : Store α) (i : Nat) (v : α) :
    storeGet (storeSet s i v) i = some v := by
  induction s with
  | nil => simp [storeSet, storeGet]
  | cons hd tl ih =>
      rcases hd with ⟨k, w⟩
      by_cases hk : k = i
      · simp [storeSet, hk, storeGet]
      · simp [storeSet, hk, storeGet, ih]

theorem storeGet_set_other {α : Type} (s : Store α) (i j : Nat) (v : α) (h : j ≠ i) :
    storeGet (storeSet s i v) j = storeGet s j := by
  induction s with
  | nil => simp [storeSet, storeGet, Ne.symm h]
  | cons hd tl ih =>
      rcases hd with ⟨k, w⟩
      by_cases hk : k = i
      · subst hk
        simp [storeSet, storeGet, Ne.symm h]
      · simp [storeSet, hk, storeGet, ih]

/-! ### Claim C6: query correctness -/

/-- C6: for every entity `e` and component-type set `types`, the query
`getEntitiesWithComponents` returns a list containing `e` iff `e` is alive
and `hasComponent e t` holds for every `t` in `types` (membership only —
the order of the result is not constrained). -/
theorem query_mem_iff (m : EntityManager) (types : List ComponentType) (e : Nat) :
    e ∈ getEntitiesWithComponents m types ↔
      (isAlive m e = true ∧ ∀ t ∈ types, hasComponent m e t = true) := by
  simp [getEntitiesWithComponents, List.mem_filter, isAlive, List.all_eq_true,
    List.elem_iff]

/-! ### Claim C7: idempotent destroy -/

/-- C7: destroying a dead (or never created) id leaves the whole registry
state unchanged (alive set, every component store, and the id counter);
destroying a live id removes it from the alive set and purges its entries
from all component maps. -/
theorem destroyEntity_spec (m : EntityManager) (i : Nat) :
    (isAlive m i = false → destroyEntity m i = m) ∧
    (isAlive m i = true →
      isAlive (destroyEntity m i) i = false ∧
      ∀ t, hasComponent (destroyEntity m i) i t = false) := by
  constructor
  · intro h
    simp [isAlive] at h
    simp [destroyEntity, h]
  · intro h
    simp [isAlive] at h
    refine ⟨?_, ?_⟩
    · simp [destroyEntity, h, isAlive, List.elem_iff, List.mem_filter]
    · intro t
      cases t <;>
        simp [destroyEntity, h, hasComponent, storeHas, storeGet_del_self]

/-- Witness for C7 at a concrete registry: id 5 was never created in the
empty manager, and destroying it is the identity. -/
theorem destroyEntity_spec_witness :
    isAlive emptyManager 5 = false ∧ destroyEntity emptyManager 5 = emptyManager :=
  ⟨by decide, (destroyEntity_spec emptyManager 5).1 (by decide)⟩

/-! ### World (`World.ts`) -/

/-- The `World` closure state: the entity manager plus the scalar game
state.  `initialLives` is the construction-time option used by
`resetLives`/`reset`. -/
structure World : Type where
  entities : EntityManager
  gameState : GameState
  score : Nat
  lives : Nat
  level : Nat
  powerUpTime : ℚ
  deltaTime : ℚ
  ghostEatenStreak : Nat
  initialLives : Nat
deriving DecidableEq, Repr

/-- `createWorld` with the default 3 lives. -/
def initialWorld : World :=
  ⟨emptyManager, .ready, 0, 3, 1, 0, 0, 0, 3⟩

/-- `addScore`: no-op unless the points are positive. -/
def addScore (w : World) (points : Int) : World :=
  if 0 < points then { w with score := w.score + points.toNat } else w

/-- `loseLife`: decrement, guarded at zero. -/
def loseLife (w : World) : World :=
  if 0 < w.lives then { w with lives := w.lives - 1 } else w

/-- `setGameState`. -/
def setGameState (w : World) (s : GameState) : World :=
  { w with gameState := s }

/-- `setPowerUpTime`. -/
def setPowerUpTime (w : World) (t : ℚ) : World :=
  { w with powerUpTime := t }

/-- `decreasePowerUpTime`: clamped at zero. -/
def decreasePowerUpTime (w : World) (d : ℚ) : World :=
  { w with powerUpTime := max 0 (w.powerUpTime - d) }

/-- `incrementGhostEatenStreak`. -/
def incrementGhostEatenStreak (w : World) : World :=
  { w with ghostEatenStreak := w.ghostEatenStreak + 1 }

/-- `resetGhostEatenStreak`. -/
def resetGhostEatenStreak (w : World) : World :=
  { w with ghostEatenStreak := 0 }

/-- `World.reset()`: clears the registry (same instance, so the id counter
is untouched) and restores every scalar field. -/
def worldReset (w : World) : World :=
  { entities := clearRegistry w.entities
    gameState := .ready
    score := 0
    lives := w.initialLives
    level := 1
    powerUpTime := 0
    deltaTime := 0
    ghostEatenStreak := 0
    initialLives := w.initialLives }

/-! ### Claim C9: entity ids are never reused -/

/-- A registry operation, for reasoning about arbitrary call traces
against one `EntityManager` instance. -/
inductive RegistryOp : Type
  | create
  | destroy (i : Nat)
  | add (i : Nat) (c : ComponentValue)
  | remove (i : Nat) (t : ComponentType)
  | clear
deriving DecidableEq, Repr

/-- Apply one registry operation (the id returned by `create` is dropped
here; `returnedIds` recovers it). -/
def applyOp (m : EntityManager) : RegistryOp → EntityManager
  | .create => (createEntity m).2
  | .destroy i => destroyEntity m i
  | .add i c => addComponent m i c
  | .remove i t => removeComponent m i t
  | .clear => clearRegistry m

/-- Run a trace of registry operations. -/
def runOps (m : EntityManager) : List RegistryOp → EntityManager
  | [] => m
  | op :: rest => runOps (applyOp m op) rest

/-- The ids handed out by the `create` calls of a trace, in call order. -/
def returnedIds (m : EntityManager) : List RegistryOp → List Nat
  | [] => []
  | .create :: rest => m.nextId :: returnedIds (applyOp m .create) rest
  | op :: rest => returnedIds (applyOp m op) rest

theorem applyOp_nextId (m : EntityManager) (op : RegistryOp) :
    m.nextId ≤ (applyOp m op).nextId := by
  cases op with
  | create => simp [applyOp, createEntity]
  | destroy i =>
      simp only [applyOp, destroyEntity]
      split <;> simp
  | add i c =>
      simp only [applyOp, addComponent]
      split
      · cases c <;> simp
      · simp
  | remove i t => cases t <;> simp [applyOp, removeComponent]
  | clear => simp [applyOp, clearRegistry]

theorem runOps_nextId (l : List RegistryOp) (m : EntityManager) :
    m.nextId ≤ (runOps m l).nextId := by
  induction l generalizing m with
  | nil => simp [runOps]
  | cons op rest ih =>
      exact le_trans (applyOp_nextId m op) (ih (applyOp m op))

theorem returnedIds_lt_nextId (l : List RegistryOp) (m : EntityManager) :
    ∀ i ∈ returnedIds m l, i < (runOps m l).nextId := by
  induction l generalizing m with
  | nil => simp [returnedIds]
  | cons op rest ih =>
      cases op with
      | create =>
          intro i hi
          simp only [returnedIds] at hi
          rcases List.mem_cons.mp hi with h | h
          · subst h
            calc m.nextId < (applyOp m .create).nextId := by
                  simp [applyOp, createEntity]
              _ ≤ (runOps (applyOp m .create) rest).nextId :=
                  runOps_nextId rest _

          · exact (by simpa [runOps] using ih (applyOp m .create) i h)
      | destroy j =>
          intro i hi
          simpa [runOps] using ih (applyOp m (.destroy j)) i (by simpa [returnedIds] using hi)
      | add j c =>
          intro i hi
          simpa [runOps] using ih (applyOp m (.add j c)) i (by simpa [returnedIds] using hi)
      | remove j t =>
          intro i hi
          simpa [runOps] using ih (applyOp m (.remove j t)) i (by simpa [returnedIds] using hi)
      | clear =>
          intro i hi
          simpa [runOps] using ih (applyOp m .clear) i (by simpa [returnedIds] using hi)

/-- C9: within one `EntityManager` instance, a `createEntity` call made
after any trace of registry operations (creates, destroys, component
updates, `clear()`s) returns an id strictly greater than every id
previously returned — ids are never reused — and both `clear()` and
`World.reset()` (which clears the same registry instance) leave the id
counter untouched. -/
theorem createEntity_ids_fresh (l : List RegistryOp) (i : Nat)
    (h : i ∈ returnedIds emptyManager l) :
    i < (createEntity (runOps emptyManager l)).1 ∧
    (∀ m : EntityManager, (clearRegistry m).nextId = m.nextId) ∧
    (∀ w : World, (worldReset w).entities.nextId = w.entities.nextId) := by
  refine ⟨?_, fun m => rfl, fun w => rfl⟩
  simpa [createEntity] using returnedIds_lt_nextId l emptyManager i h

/-- Witness for C9: after `create, create, destroy 0, clear, create`,
the next create returns an id above each of the returned ids 0, 1, 2. -/
theorem createEntity_ids_fresh_witness :
    (0 : Nat) ∈ returnedIds emptyManager
        [.create, .create, .destroy 0, .clear, .create] ∧
    0 < (createEntity (runOps emptyManager
        [.create, .create, .destroy 0, .clear, .create])).1 :=
  ⟨by decide,
   (createEntity_ids_fresh [.create, .create, .destroy 0, .clear, .create] 0
      (by decide)).1⟩

/-! ### Selectors (`playerSelectors.ts`, `ghostSelectors.ts`,
`mazeSelectors.ts`) -/

/-- Constants from `utils/constants.ts`: `TILE_SIZE = 20`. -/
def TILE_SIZE : ℚ := 20

/-- `MAZE_WIDTH = 28`. -/
def MAZE_WIDTH : Int := 28

/-- `GHOST_SPEED = 2 * 0.75`. -/
def GHOST_SPEED : ℚ := 2 * (3 / 4)

/-- `GHOST_FRIGHTENED_SPEED = 2 * 0.5`. -/
def GHOST_FRIGHTENED_SPEED : ℚ := 2 * (1 / 2)

/-- `POWER_WARNING_TIME = 2000`. -/
def POWER_WARNING_TIME : ℚ := 2000

/-- `getPlayerEntity`: first alive entity holding `playerControlled`. -/
def getPlayerEntity (w : World) : Option Nat :=
  (getEntitiesWithComponents w.entities [.playerControlled]).head?

/-- `getPlayerPosition`. -/
def getPlayerPosition (w : World) : Option Position :=
  match getPlayerEntity w with
  | none => none
  | some pid => storeGet w.entities.position pid

/-- `getPlayerDirection`. -/
def getPlayerDirection (w : World) : Option Direction :=
  match getPlayerEntity w with
  | none => none
  | some pid =>
      match storeGet w.entities.velocity pid with
      | none => none
      | some v => v.direction

/-- `getGhostEntities`. -/
def getGhostEntities (w : World) : List Nat :=
  getEntitiesWithComponents w.entities [.ghostAI]

/-- `getGhostMode`. -/
def getGhostMode (w : World) (gid : Nat) : Option GhostMode :=
  (storeGet w.entities.ghostAI gid).map (·.mode)

/-- `getGhostType`. -/
def getGhostType (w : World) (gid : Nat) : Option GhostType :=
  (storeGet w.entities.ghostAI gid).map (·.type)

/-- `isGhostVulnerable`: vulnerable component present with positive
remaining time. -/
def isGhostVulnerable (w : World) (gid : Nat) : Bool :=
  match storeGet w.entities.vulnerable gid with
  | none => false
  | some v => 0 < v.remainingTime

/-- `getAllPellets`: entities with both `edible` and `position`. -/
def getAllPellets (w : World) : List Nat :=
  getEntitiesWithComponents w.entities [.edible, .position]

/-- `getRemainingPelletCount`. -/
def getRemainingPelletCount (w : World) : Nat :=
  (getAllPellets w).length

/-! ### Events (`types/events.ts`) -/

/-- The event-bus vocabulary with payloads, as dispatched by the systems. -/
inductive GameEvent : Type
  | pelletEaten (entityId : Nat) (pos : Position) (points : Int)
  | powerPelletEaten (entityId : Nat) (pos : Position) (points : Int) (duration : ℚ)
  | powerUpStarted (timeRemaining : ℚ)
  | powerUpWarning (timeRemaining : ℚ)
  | powerUpEnded
  | ghostEaten (ghostId : Nat) (ghostType : GhostType) (points : Int)
      (streak : Nat) (pos : Position)
  | playerDied (livesRemaining : Nat)
  | gameOver (finalScore : Nat) (level : Nat)
  | levelComplete (level : Nat) (score : Nat)
  | gameRestart
  | ghostModeChange (mode : GlobalMode)
deriving DecidableEq, Repr

/-- Tag check: is this a `player:died` event? -/
def isPlayerDiedEv : GameEvent → Bool
  | .playerDied _ => true
  | _ => false

/-- Tag check: is this a `ghost:eaten` event? -/
def isGhostEatenEv : GameEvent → Bool
  | .ghostEaten _ _ _ _ _ => true
  | _ => false

/-! ### Collision System (`CollisionSystem.ts`) -/

/-- `GHOST_POINTS = [200, 400, 800, 1600]`. -/
def GHOST_POINTS : List Int := [200, 400, 800, 1600]

/-- `areColliding`: pixel distance below `COLLISION_THRESHOLD`
(`TILE_SIZE * 0.8 = 16`); the source's `sqrt(dx²+dy²) < 16` is modelled by
the equivalent `dx²+dy² < 16²`. -/
def areColliding (m : EntityManager) (e1 e2 : Nat) : Bool :=
  match storeGet m.position e1, storeGet m.position e2 with
  | some p1, some p2 =>
      let dx := p1.pixelX - p2.pixelX
      let dy := p1.pixelY - p2.pixelY
      dx * dx + dy * dy < (16 : ℚ) * 16
  | _, _ => false

/-- Update the `ghostAI` component of `gid` (an `addComponent` call, which
in the collision/AI systems always targets an alive entity). -/
def setGhostAIComp (w : World) (gid : Nat) (c : GhostAIComp) : World :=
  { w with entities := addComponent w.entities gid (.ghostAI c) }

/-- The body of the vulnerable branch of the collision loop: streak
increment, score award, `Vulnerable` removal, mode set to `eaten`.
Returns the updated world plus the dispatched `ghost:eaten` event. -/
def eatGhostStep (w : World) (gid : Nat) : World × GameEvent :=
  let w1 := incrementGhostEatenStreak w
  let streak := w1.ghostEatenStreak
  let points := GHOST_POINTS.getD (min (streak - 1) (GHOST_POINTS.length - 1)) 0
  let ghostType := (getGhostType w1 gid).getD .blinky
  let w2 := addScore w1 points
  let w3 := { w2 with entities := removeComponent w2.entities gid .vulnerable }
  let w4 :=
    match storeGet w3.entities.ghostAI gid with
    | some ai => setGhostAIComp w3 gid { ai with mode := .eaten }
    | none => w3
  let ghostPos := (storeGet w4.entities.position gid).getD ⟨0, 0, 0, 0⟩
  (w4, .ghostEaten gid ghostType points streak ghostPos)

/-- The collision-processing loop (`for (const ghostId of collidingGhosts)`):
eat vulnerable ghosts one by one; on the first non-vulnerable ghost, lose a
life, emit `player:died`, and — when no lives remain — set `lost` and emit
`game:over`; then stop (the `break`). -/
def processCollisions (w : World) : List Nat → World × List GameEvent
  | [] => (w, [])
  | gid :: rest =>
      if isGhostVulnerable w gid then
        let (w4, ev) := eatGhostStep w gid
        let (w', evs) := processCollisions w4 rest
        (w', ev :: evs)
      else
        let w1 := loseLife w
        let livesRemaining := w1.lives
        if livesRemaining = 0 then
          (setGameState w1 .lost,
           [.playerDied livesRemaining, .gameOver w1.score w1.level])
        else
          (w1, [.playerDied livesRemaining])

/-- The `if (mode === 'eaten') continue` test of the discovery loop. -/
def isEatenMode (w : World) (gid : Nat) : Bool :=
  match getGhostMode w gid with
  | some .eaten => true
  | _ => false

/-- The colliding-ghost discovery loop: all ghosts not in `eaten` mode
whose pixel distance to the player is under the threshold, in alive
order. -/
def collidingGhosts (w : World) : List Nat :=
  if w.gameState = .playing then
    match getPlayerEntity w with
    | none => []
    | some pid =>
        (getGhostEntities w).filter
          (fun gid => !isEatenMode w gid && areColliding w.entities pid gid)
  else []

/-- `CollisionSystem.update`. -/
def collisionUpdate (w : World) : World × List GameEvent :=
  if w.gameState = .playing then
    match getPlayerEntity w with
    | none => (w, [])
    | some _ => processCollisions w (collidingGhosts w)
  else (w, [])

/-! ### Collision-system lemmas -/

theorem loseLife_lives (w : World) : (loseLife w).lives = w.lives - 1 := by
  simp only [loseLife]
  split
  · rfl
  · omega

theorem eatGhostStep_frame (w : World) (gid : Nat) :
    (eatGhostStep w gid).1.lives = w.lives ∧
    (eatGhostStep w gid).1.gameState = w.gameState ∧
    (eatGhostStep w gid).1.ghostEatenStreak = w.ghostEatenStreak + 1 ∧
    (eatGhostStep w gid).1.entities.alive = w.entities.alive ∧
    (eatGhostStep w gid).1.entities.position = w.entities.position ∧
    (eatGhostStep w gid).1.entities.playerControlled = w.entities.playerControlled ∧
    (eatGhostStep w gid).1.entities.edible = w.entities.edible ∧
    (eatGhostStep w gid).1.entities.powerUp = w.entities.powerUp ∧
    (eatGhostStep w gid).1.entities.vulnerable = storeDel w.entities.vulnerable gid := by
  simp only [eatGhostStep, setGhostAIComp, addScore, incrementGhostEatenStreak,
    addComponent, removeComponent]
  split <;> split <;> (try split) <;> simp

theorem eatGhostStep_event (w : World) (gid : Nat) :
    (eatGhostStep w gid).2 =
      .ghostEaten gid ((getGhostType w gid).getD .blinky)
        (GHOST_POINTS.getD (min w.ghostEatenStreak (GHOST_POINTS.length - 1)) 0)
        (w.ghostEatenStreak + 1)
        ((storeGet w.entities.position gid).getD ⟨0, 0, 0, 0⟩) := by
  simp only [eatGhostStep, setGhostAIComp, addScore, incrementGhostEatenStreak,
    addComponent, removeComponent, getGhostType]
  split <;> split <;> (try split) <;> simp

theorem eatGhostStep_vuln_other (w : World) (gid j : Nat) (h : j ≠ gid) :
    isGhostVulnerable (eatGhostStep w gid).1 j = isGhostVulnerable w j := by
  have hv := (eatGhostStep_frame w gid).2.2.2.2.2.2.2.2
  simp only [isGhostVulnerable, hv, storeGet_del_other _ _ _ h]

theorem eatGhostStep_ghostType_other (w : World) (gid j : Nat) (h : j ≠ gid) :
    getGhostType (eatGhostStep w gid).1 j = getGhostType w j := by
  simp only [eatGhostStep, setGhostAIComp, addScore, incrementGhostEatenStreak,
    addComponent, removeComponent, getGhostType]
  split <;> split <;> (try split) <;>
    simp [storeGet_set_other _ _ _ _ h]

/-- Ghost id carried by a `ghost:eaten` event. -/
def evGhostId : GameEvent → Nat
  | .ghostEaten g _ _ _ _ => g
  | _ => 0

/-- Points carried by a `ghost:eaten` event. -/
def evPoints : GameEvent → Int
  | .ghostEaten _ _ p _ _ => p
  | _ => 0

/-- In a tick where every colliding ghost is vulnerable, the collision loop
eats each one in order: lives and game state are untouched and each ghost
produces exactly one `ghost:eaten` event whose points come from the
doubling schedule at the running streak. -/
theorem processCollisions_all_vulnerable (l : List Nat) (w : World)
    (hnd : l.Nodup) (hv : ∀ g ∈ l, isGhostVulnerable w g = true) :
    (processCollisions w l).1.lives = w.lives ∧
    (processCollisions w l).1.gameState = w.gameState ∧
    (processCollisions w l).2.map evGhostId = l ∧
    (∀ e ∈ (processCollisions w l).2, isGhostEatenEv e = true) ∧
    (processCollisions w l).2.map evPoints =
      (List.range l.length).map
        (fun i => GHOST_POINTS.getD
          (min (w.ghostEatenStreak + i) (GHOST_POINTS.length - 1)) 0) := by
  induction l generalizing w with
  | nil => simp [processCollisions]
  | cons g rest ih =>
      have hgv : isGhostVulnerable w g = true := hv g (by simp)
      have hnd' : rest.Nodup := hnd.of_cons
      have hgni : g ∉ rest := by
        intro hmem
        exact (List.nodup_cons.mp hnd).1 hmem
      have hframe := eatGhostStep_frame w g
      have hv' : ∀ x ∈ rest, isGhostVulnerable (eatGhostStep w g).1 x = true := by
        intro x hx
        have hxg : x ≠ g := fun hh => hgni (hh ▸ hx)
        rw [eatGhostStep_vuln_other w g x hxg]
        exact hv x (by simp [hx])
      have ihr := ih (eatGhostStep w g).1 hnd' hv'
      simp only [processCollisions, hgv, if_pos]
      refine ⟨by rw [ihr.1, hframe.1], by rw [ihr.2.1, hframe.2.1], ?_, ?_, ?_⟩
      · simp only [List.map_cons, ihr.2.2.1, eatGhostStep_event w g, evGhostId]
      · intro e he
        simp only [List.mem_cons] at he
        rcases he with he | he
        · rw [he, eatGhostStep_event w g]
          rfl
        · exact ihr.2.2.2.1 e he
      · simp only [List.map_cons, eatGhostStep_event w g, evPoints,
          List.length_cons, List.range_succ_eq_map, List.map_map]
        rw [ihr.2.2.2.2, List.cons_eq_cons]
        refine ⟨by simp, ?_⟩
        apply List.map_congr_left
        intro i _
        have hst : (eatGhostStep w g).1.ghostEatenStreak + i =
            w.ghostEatenStreak + (i + 1) := by
          rw [hframe.2.2.1]
          omega
        simp [Function.comp, hst]

/-- The collision loop processes at most one player death, whatever the
list of colliding ghosts. -/
theorem processCollisions_death_count (l : List Nat) (w : World) :
    (processCollisions w l).2.countP (fun e => isPlayerDiedEv e) ≤ 1 := by
  induction l generalizing w with
  | nil => simp [processCollisions]
  | cons g rest ih =>
      simp only [processCollisions]
      split
      · have hev : isPlayerDiedEv (eatGhostStep w g).2 = false := by
          rw [eatGhostStep_event]
          rfl
        simpa [List.countP_cons, hev] using ih (eatGhostStep w g).1
      · split <;> simp [List.countP_cons, isPlayerDiedEv]

/-- First-occurrence decomposition of a list along a boolean predicate. -/
theorem exists_first_split {α : Type} (p : α → Bool) (l : List α)
    (h : ∃ x ∈ l, p x = true) :
    ∃ l1 g l2, l = l1 ++ g :: l2 ∧ (∀ y ∈ l1, p y = false) ∧ p g = true := by
  induction l with
  | nil => simp at h
  | cons a rest ih =>
      by_cases hpa : p a = true
      · exact ⟨[], a, rest, rfl, by simp, hpa⟩
      · have hpa' : p a = false := by simpa using hpa
        have h' : ∃ x ∈ rest, p x = true := by
          rcases h with ⟨x, hx, hpx⟩
          rcases List.mem_cons.mp hx with rfl | hx'
          · exact absurd hpx hpa
          · exact ⟨x, hx', hpx⟩
        rcases ih h' with ⟨l1, g, l2, heq, hl1, hg⟩
        refine ⟨a :: l1, g, l2, by rw [heq]; rfl, ?_, hg⟩
        intro y hy
        rcases List.mem_cons.mp hy with rfl | hy'
        · exact hpa'
        · exact hl1 y hy'

/-- When the colliding list is a block of vulnerable ghosts followed by a
non-vulnerable one, the loop eats the block, then decrements exactly one
life, emits `player:died` with the remaining lives, emits `game:over` and
sets `lost` exactly when the remaining lives are zero, and stops. -/
theorem processCollisions_death (l1 : List Nat) (g : Nat) (l2 : List Nat)
    (w : World) (hnd : (l1 ++ g :: l2).Nodup)
    (hv1 : ∀ x ∈ l1, isGhostVulnerable w x = true)
    (hg : isGhostVulnerable w g = false) :
    (processCollisions w (l1 ++ g :: l2)).1.lives = w.lives - 1 ∧
    (w.lives - 1 = 0 →
      (processCollisions w (l1 ++ g :: l2)).1.gameState = .lost) ∧
    (w.lives - 1 ≠ 0 →
      (processCollisions w (l1 ++ g :: l2)).1.gameState = w.gameState) ∧
    ∃ pre : List GameEvent, (∀ e ∈ pre, isGhostEatenEv e = true) ∧
      (processCollisions w (l1 ++ g :: l2)).2 =
        pre ++ .playerDied (w.lives - 1) ::
          (if w.lives - 1 = 0
           then [.gameOver (processCollisions w (l1 ++ g :: l2)).1.score
                  (processCollisions w (l1 ++ g :: l2)).1.level]
           else []) := by
  induction l1 generalizing w with
  | nil =>
      simp only [List.nil_append] at hnd ⊢
      have hl := loseLife_lives w
      have hfr : (loseLife w).gameState = w.gameState ∧
          (loseLife w).score = w.score ∧ (loseLife w).level = w.level := by
        simp only [loseLife]
        split <;> simp
      by_cases h0 : w.lives - 1 = 0
      · refine ⟨?_, ?_, ?_, [], by simp, ?_⟩
        · simp [processCollisions, hg, hl, h0, setGameState]
        · intro _
          simp [processCollisions, hg, hl, h0, setGameState]
        · intro hc
          exact absurd h0 hc
        · simp [processCollisions, hg, hl, h0, setGameState]
      · refine ⟨?_, ?_, ?_, [], by simp, ?_⟩
        · simp [processCollisions, hg, hl, h0]
        · intro hc
          exact absurd hc h0
        · intro _
          simp [processCollisions, hg, hl, h0, hfr.1]
        · simp [processCollisions, hg, hl, h0]
  | cons x l1' ih =>
      have hxv : isGhostVulnerable w x = true := hv1 x (by simp)
      have hframe := eatGhostStep_frame w x
      have hnd2 : (x :: (l1' ++ g :: l2)).Nodup := by
        rw [← List.cons_append]
        exact hnd
      have hnd' : (l1' ++ g :: l2).Nodup := hnd2.of_cons
      have hxnotin : x ∉ l1' ++ g :: l2 := (List.nodup_cons.mp hnd2).1
      have hv1' : ∀ y ∈ l1', isGhostVulnerable (eatGhostStep w x).1 y = true := by
        intro y hy
        have hyx : y ≠ x := by
          intro hh
          exact hxnotin (hh ▸ (List.mem_append.mpr (Or.inl hy)))
        rw [eatGhostStep_vuln_other w x y hyx]
        exact hv1 y (by simp [hy])
      have hg' : isGhostVulnerable (eatGhostStep w x).1 g = false := by
        have hgx : g ≠ x := by
          intro hh
          exact hxnotin (hh ▸ (List.mem_append.mpr (Or.inr (by simp))))
        rw [eatGhostStep_vuln_other w x g hgx]
        exact hg
      have ihr := ih (eatGhostStep w x).1 hnd' hv1' hg'
      rw [hframe.1] at ihr
      simp only [List.cons_append, processCollisions, hxv, if_pos, List.append_eq]
      refine ⟨ihr.1, ?_, ?_, ?_⟩
      · intro h0
        exact ihr.2.1 h0
      · intro h0
        rw [ihr.2.2.1 h0, hframe.2.1]
      · rcases ihr.2.2.2 with ⟨pre, hpre, hevs⟩
        refine ⟨(eatGhostStep w x).2 :: pre, ?_, ?_⟩
        · intro e he
          rcases List.mem_cons.mp he with rfl | he'
          · rw [eatGhostStep_event]
            rfl
          · exact hpre e he'
        · simp [hevs]

theorem collidingGhosts_nodup (w : World) (hnd : w.entities.alive.Nodup) :
    (collidingGhosts w).Nodup := by
  simp only [collidingGhosts]
  split
  · split
    · exact List.nodup_nil
    · exact ((hnd.filter _).filter _)
  · exact List.nodup_nil

theorem collidingGhosts_playing (w : World) (h : collidingGhosts w ≠ []) :
    w.gameState = .playing ∧
    collisionUpdate w = processCollisions w (collidingGhosts w) := by
  by_cases hp : w.gameState = .playing
  · refine ⟨hp, ?_⟩
    rcases hpe : getPlayerEntity w with _ | pid
    · exact absurd (by simp [collidingGhosts, hp, hpe]) h
    · simp [collisionUpdate, hp, hpe]
  · exact absurd (by simp [collidingGhosts, hp]) h

/-- C2: in one tick of the collision system, at most one player death is
processed.  When some colliding adversary is not vulnerable, exactly one
life is lost (the spec's clamped `max(0, lives-1)` decrement), a
`player:died` event carries the remaining lives, the game state becomes
`lost` together with a `game:over` event carrying the final score and
level exactly when the remaining lives are zero, and no further colliding
adversary is processed: the `player:died` event is the last event apart
from a possible trailing `game:over`, everything before it being
`ghost:eaten` events. -/
theorem collisionUpdate_single_death (w : World)
    (hnd : w.entities.alive.Nodup) :
    (collisionUpdate w).2.countP (fun e => isPlayerDiedEv e) ≤ 1 ∧
    ((∃ g ∈ collidingGhosts w, isGhostVulnerable w g = false) →
      (collisionUpdate w).1.lives = w.lives - 1 ∧
      ((collisionUpdate w).1.gameState = .lost ↔ w.lives - 1 = 0) ∧
      ∃ pre : List GameEvent, (∀ e ∈ pre, isGhostEatenEv e = true) ∧
        (collisionUpdate w).2 = pre ++ .playerDied (w.lives - 1) ::
          (if w.lives - 1 = 0
           then [.gameOver (collisionUpdate w).1.score (collisionUpdate w).1.level]
           else [])) := by
  constructor
  · simp only [collisionUpdate]
    split
    · split
      · simp
      · exact processCollisions_death_count _ w
    · simp
  · intro hex
    have hne : collidingGhosts w ≠ [] := by
      rcases hex with ⟨g, hg, _⟩
      intro hnil
      rw [hnil] at hg
      exact absurd hg (List.not_mem_nil g)
    rcases collidingGhosts_playing w hne with ⟨hplay, heq⟩
    have hsplit := exists_first_split (fun x => !isGhostVulnerable w x)
      (collidingGhosts w)
      (by
        rcases hex with ⟨g, hg, hgv⟩
        exact ⟨g, hg, by simp [hgv]⟩)
    rcases hsplit with ⟨l1, g, l2, hdec, hl1, hgv⟩
    have hgv' : isGhostVulnerable w g = false := by
      simpa using hgv
    have hl1' : ∀ y ∈ l1, isGhostVulnerable w y = true := by
      intro y hy
      simpa using hl1 y hy
    have hndc : (l1 ++ g :: l2).Nodup := hdec ▸ collidingGhosts_nodup w hnd
    have hmain := processCollisions_death l1 g l2 w hndc hl1' hgv'
    rw [heq, hdec]
    refine ⟨hmain.1, ?_, hmain.2.2.2⟩
    constructor
    · intro hlost
      by_contra h0
      have := hmain.2.2.1 h0
      rw [hlost, hplay] at this
      exact GameState.noConfusion this
    · exact hmain.2.1

/-- A concrete world for the C2 witness: player entity 0 and a single
non-vulnerable ghost entity 1 at the same pixel position, 3 lives. -/
def demoWorldDeath : World :=
  { entities :=
    { nextId := 2
      alive := [0, 1]
      position := [(0, ⟨14, 23, 290, 470⟩), (1, ⟨14, 23, 290, 470⟩)]
      velocity := []
      ghostAI := [(1, ⟨.blinky, .scatter, ⟨25, 0⟩⟩)]
      edible := []
      powerUp := []
      vulnerable := []
      respawnable := []
      playerControlled := [(0, ())]
      collider := [] }
    gameState := .playing
    score := 120
    lives := 3
    level := 1
    powerUpTime := 0
    deltaTime := 16
    ghostEatenStreak := 0
    initialLives := 3 }

/-- Witness for C2: in `demoWorldDeath` the colliding ghost is not
vulnerable, and the tick takes the lives from 3 to `3 - 1`. -/
theorem collisionUpdate_single_death_witness :
    demoWorldDeath.entities.alive.Nodup ∧
    (∃ g ∈ collidingGhosts demoWorldDeath,
      isGhostVulnerable demoWorldDeath g = false) ∧
    (collisionUpdate demoWorldDeath).1.lives = demoWorldDeath.lives - 1 :=
  ⟨by decide,
   by norm_num [collidingGhosts, demoWorldDeath, getPlayerEntity,
     getEntitiesWithComponents, hasComponent, storeHas, storeGet,
     getGhostEntities, getGhostMode, isEatenMode, areColliding, isGhostVulnerable],
   ((collisionUpdate_single_death demoWorldDeath (by decide)).2
     (by norm_num [collidingGhosts, demoWorldDeath, getPlayerEntity,
       getEntitiesWithComponents, hasComponent, storeHas, storeGet,
       getGhostEntities, getGhostMode, isEatenMode, areColliding, isGhostVulnerable])).1⟩

/-- C3: with the kill streak starting at zero and every colliding
adversary vulnerable, the `ghost:eaten` events award points following the
doubling schedule `GHOST_POINTS` indexed by the running streak (capped at
the last entry); in particular four simultaneous eats award exactly
`[200, 400, 800, 1600]` in collision-processing order, and any eat at
streak position five or beyond awards 1600. -/
theorem collisionUpdate_streak_points (w : World)
    (hnd : w.entities.alive.Nodup)
    (hstreak : w.ghostEatenStreak = 0)
    (hv : ∀ g ∈ collidingGhosts w, isGhostVulnerable w g = true) :
    (collisionUpdate w).2.map evPoints =
      (List.range (collidingGhosts w).length).map
        (fun i => GHOST_POINTS.getD (min i (GHOST_POINTS.length - 1)) 0) ∧
    ((collidingGhosts w).length = 4 →
      (collisionUpdate w).2.map evPoints = [200, 400, 800, 1600]) ∧
    (∀ i, 4 ≤ i →
      GHOST_POINTS.getD (min i (GHOST_POINTS.length - 1)) 0 = 1600) := by
  have hcap : ∀ i, 4 ≤ i →
      GHOST_POINTS.getD (min i (GHOST_POINTS.length - 1)) 0 = 1600 := by
    intro i hi
    have hlen : GHOST_POINTS.length - 1 = 3 := rfl
    rw [hlen, Nat.min_eq_right (by omega)]
    rfl
  have hnilupd : collidingGhosts w = [] → (collisionUpdate w).2 = [] := by
    intro hnil
    simp only [collisionUpdate]
    split
    · split
      · rfl
      · rw [hnil]
        rfl
    · rfl
  by_cases hne : collidingGhosts w = []
  · refine ⟨by rw [hnilupd hne, hne]; rfl, ?_, hcap⟩
    intro h4
    rw [hne] at h4
    simp at h4
  · rcases collidingGhosts_playing w hne with ⟨_, heq⟩
    have hmain := processCollisions_all_vulnerable (collidingGhosts w) w
      (collidingGhosts_nodup w hnd) hv
    have hpts := hmain.2.2.2.2
    rw [hstreak] at hpts
    simp only [Nat.zero_add] at hpts
    refine ⟨by rw [heq]; exact hpts, ?_, hcap⟩
    intro h4
    rw [heq, hpts, h4]
    rfl

/-- A concrete world for the C3 witness: player entity 0 and four
vulnerable ghosts 1–4, all at the same pixel position, streak 0. -/
def demoWorldStreak : World :=
  { entities :=
    { nextId := 5
      alive := [0, 1, 2, 3, 4]
      position := [(0, ⟨14, 23, 290, 470⟩), (1, ⟨14, 23, 290, 470⟩),
        (2, ⟨14, 23, 290, 470⟩), (3, ⟨14, 23, 290, 470⟩),
        (4, ⟨14, 23, 290, 470⟩)]
      velocity := []
      ghostAI := [(1, ⟨.blinky, .frightened, ⟨25, 0⟩⟩),
        (2, ⟨.pinky, .frightened, ⟨2, 0⟩⟩),
        (3, ⟨.inky, .frightened, ⟨27, 30⟩⟩),
        (4, ⟨.clyde, .frightened, ⟨0, 30⟩⟩)]
      edible := []
      powerUp := []
      vulnerable := [(1, ⟨5000, false⟩), (2, ⟨5000, false⟩),
        (3, ⟨5000, false⟩), (4, ⟨5000, false⟩)]
      respawnable := []
      playerControlled := [(0, ())]
      collider := [] }
    gameState := .playing
    score := 0
    lives := 3
    level := 1
    powerUpTime := 5000
    deltaTime := 16
    ghostEatenStreak := 0
    initialLives := 3 }

/-- Witness for C3: four vulnerable colliding ghosts in `demoWorldStreak`
are awarded exactly 200, 400, 800, 1600. -/
theorem collisionUpdate_streak_points_witness :
    demoWorldStreak.entities.alive.Nodup ∧
    demoWorldStreak.ghostEatenStreak = 0 ∧
    (∀ g ∈ collidingGhosts demoWorldStreak,
      isGhostVulnerable demoWorldStreak g = true) ∧
    (collidingGhosts demoWorldStreak).length = 4 ∧
    (collisionUpdate demoWorldStreak).2.map evPoints = [200, 400, 800, 1600] :=
  ⟨by decide, by decide,
   by norm_num [collidingGhosts, demoWorldStreak, getPlayerEntity,
     getEntitiesWithComponents, hasComponent, storeHas, storeGet,
     getGhostEntities, getGhostMode, isEatenMode, areColliding, isGhostVulnerable],
   by norm_num [collidingGhosts, demoWorldStreak, getPlayerEntity,
     getEntitiesWithComponents, hasComponent, storeHas, storeGet,
     getGhostEntities, getGhostMode, isEatenMode, areColliding, isGhostVulnerable],
   (collisionUpdate_streak_points demoWorldStreak (by decide) (by decide)
     (by norm_num [collidingGhosts, demoWorldStreak, getPlayerEntity,
       getEntitiesWithComponents, hasComponent, storeHas, storeGet,
       getGhostEntities, getGhostMode, isEatenMode, areColliding,
       isGhostVulnerable])).2.1
     (by norm_num [collidingGhosts, demoWorldStreak, getPlayerEntity,
       getEntitiesWithComponents, hasComponent, storeHas, storeGet,
       getGhostEntities, getGhostMode, isEatenMode, areColliding, isGhostVulnerable])⟩

/-! ### Maze data (`data/originalMaze.ts`) -/

/-- Maze cell types (`MazeCellType`). -/
inductive CellType : Type
  | wall
  | path
  | tunnel
  | ghostHouse
  | ghostDoor
deriving DecidableEq, Repr

/-- `ORIGINAL_MAZE_NUMERIC`: the 31×28 numeric grid. -/
def mazeNumeric : List (List Nat) :=
  [[1, 1, 1, 1, 1, 1, 1, 1, 1, 1, 1, 1, 1, 1, 1, 1, 1, 1, 1, 1, 1, 1, 1, 1, 1, 1, 1, 1],
   [1, 0, 0, 0, 0, 0, 0, 0, 0, 0, 0, 0, 0, 1, 1, 0, 0, 0, 0, 0, 0, 0, 0, 0, 0, 0, 0, 1],
   [1, 0, 1, 1, 1, 1, 0, 1, 1, 1, 1, 1, 0, 1, 1, 0, 1, 1, 1, 1, 1, 0, 1, 1, 1, 1, 0, 1],
   [1, 3, 1, 1, 1, 1, 0, 1, 1, 1, 1, 1, 0, 1, 1, 0, 1, 1, 1, 1, 1, 0, 1, 1, 1, 1, 3, 1],
   [1, 0, 1, 1, 1, 1, 0, 1, 1, 1, 1, 1, 0, 1, 1, 0, 1, 1, 1, 1, 1, 0, 1, 1, 1, 1, 0, 1],
   [1, 0, 0, 0, 0, 0, 0, 0, 0, 0, 0, 0, 0, 0, 0, 0, 0, 0, 0, 0, 0, 0, 0, 0, 0, 0, 0, 1],
   [1, 0, 1, 1, 1, 1, 0, 1, 1, 0, 1, 1, 1, 1, 1, 1, 1, 1, 0, 1, 1, 0, 1, 1, 1, 1, 0, 1],
   [1, 0, 1, 1, 1, 1, 0, 1, 1, 0, 1, 1, 1, 1, 1, 1, 1, 1, 0, 1, 1, 0, 1, 1, 1, 1, 0, 1],
   [1, 0, 0, 0, 0, 0, 0, 1, 1, 0, 0, 0, 0, 1, 1, 0, 0, 0, 0, 1, 1, 0, 0, 0, 0, 0, 0, 1],
   [1, 1, 1, 1, 1, 1, 0, 1, 1, 1, 1, 1, 0, 1, 1, 0, 1, 1, 1, 1, 1, 0, 1, 1, 1, 1, 1, 1],
   [1, 1, 1, 1, 1, 1, 0, 1, 1, 1, 1, 1, 0, 1, 1, 0, 1, 1, 1, 1, 1, 0, 1, 1, 1, 1, 1, 1],
   [1, 1, 1, 1, 1, 1, 0, 1, 1, 0, 0, 0, 0, 0, 0, 0, 0, 0, 0, 1, 1, 0, 1, 1, 1, 1, 1, 1],
   [1, 1, 1, 1, 1, 1, 0, 1, 1, 0, 1, 1, 1, 5, 5, 1, 1, 1, 0, 1, 1, 0, 1, 1, 1, 1, 1, 1],
   [1, 1, 1, 1, 1, 1, 0, 1, 1, 0, 1, 2, 2, 2, 2, 2, 2, 1, 0, 1, 1, 0, 1, 1, 1, 1, 1, 1],
   [4, 4, 4, 4, 4, 4, 0, 0, 0, 0, 1, 2, 2, 2, 2, 2, 2, 1, 0, 0, 0, 0, 4, 4, 4, 4, 4, 4],
   [1, 1, 1, 1, 1, 1, 0, 1, 1, 0, 1, 2, 2, 2, 2, 2, 2, 1, 0, 1, 1, 0, 1, 1, 1, 1, 1, 1],
   [1, 1, 1, 1, 1, 1, 0, 1, 1, 0, 1, 1, 1, 1, 1, 1, 1, 1, 0, 1, 1, 0, 1, 1, 1, 1, 1, 1],
   [1, 1, 1, 1, 1, 1, 0, 1, 1, 0, 0, 0, 0, 0, 0, 0, 0, 0, 0, 1, 1, 0, 1, 1, 1, 1, 1, 1],
   [1, 1, 1, 1, 1, 1, 0, 1, 1, 0, 1, 1, 1, 1, 1, 1, 1, 1, 0, 1, 1, 0, 1, 1, 1, 1, 1, 1],
   [1, 0, 0, 0, 0, 0, 0, 0, 0, 0, 0, 0, 0, 1, 1, 0, 0, 0, 0, 0, 0, 0, 0, 0, 0, 0, 0, 1],
   [1, 0, 1, 1, 1, 1, 0, 1, 1, 1, 1, 1, 0, 1, 1, 0, 1, 1, 1, 1, 1, 0, 1, 1, 1, 1, 0, 1],
   [1, 0, 1, 1, 1, 1, 0, 1, 1, 1, 1, 1, 0, 1, 1, 0, 1, 1, 1, 1, 1, 0, 1, 1, 1, 1, 0, 1],
   [1, 3, 0, 0, 1, 1, 0, 0, 0, 0, 0, 0, 0, 4, 4, 0, 0, 0, 0, 0, 0, 0, 1, 1, 0, 0, 3, 1],
   [1, 1, 1, 0, 1, 1, 0, 1, 1, 0, 1, 1, 1, 1, 1, 1, 1, 1, 0, 1, 1, 0, 1, 1, 0, 1, 1, 1],
   [1, 1, 1, 0, 1, 1, 0, 1, 1, 0, 1, 1, 1, 1, 1, 1, 1, 1, 0, 1, 1, 0, 1, 1, 0, 1, 1, 1],
   [1, 0, 0, 0, 0, 0, 0, 1, 1, 0, 0, 0, 0, 1, 1, 0, 0, 0, 0, 1, 1, 0, 0, 0, 0, 0, 0, 1],
   [1, 0, 1, 1, 1, 1, 1, 1, 1, 1, 1, 1, 0, 1, 1, 0, 1, 1, 1, 1, 1, 1, 1, 1, 1, 1, 0, 1],
   [1, 0, 1, 1, 1, 1, 1, 1, 1, 1, 1, 1, 0, 1, 1, 0, 1, 1, 1, 1, 1, 1, 1, 1, 1, 1, 0, 1],
   [1, 0, 0, 0, 0, 0, 0, 0, 0, 0, 0, 0, 0, 0, 0, 0, 0, 0, 0, 0, 0, 0, 0, 0, 0, 0, 0, 1],
   [1, 1, 1, 1, 1, 1, 1, 1, 1, 1, 1, 1, 1, 1, 1, 1, 1, 1, 1, 1, 1, 1, 1, 1, 1, 1, 1, 1],
   [1, 1, 1, 1, 1, 1, 1, 1, 1, 1, 1, 1, 1, 1, 1, 1, 1, 1, 1, 1, 1, 1, 1, 1, 1, 1, 1, 1]]

/-- `convertCell`: numeric value to cell type (4 is a tunnel only on the
side sections of row 14, else plain path). -/
def convertCell (value : Nat) (x y : Nat) : CellType :=
  let isTunnelRow := y = 14
  let isTunnelColumn := x ≤ 5 ∨ 22 ≤ x
  match value with
  | 1 => .wall
  | 2 => .ghostHouse
  | 5 => .ghostDoor
  | 0 => .path
  | 3 => .path
  | 4 => if isTunnelRow ∧ isTunnelColumn then .tunnel else .path
  | _ => .path

/-- `ORIGINAL_MAZE`. -/
def originalMaze : List (List CellType) :=
  mazeNumeric.mapIdx (fun y row => row.mapIdx (fun x v => convertCell v x y))

/-- Cell lookup with integer coordinates (out of bounds gives `none`). -/
def mazeCellAt (x y : Int) : Option CellType :=
  if y < 0 ∨ x < 0 then none
  else
    match originalMaze.get? y.toNat with
    | none => none
    | some row => row.get? x.toNat

/-! ### Ghost AI System (`GhostAISystem.ts`) -/

/-- `SCATTER_TARGETS`. -/
def scatterTargets : GhostType → Coord
  | .blinky => ⟨25, 0⟩
  | .pinky => ⟨2, 0⟩
  | .inky => ⟨27, 30⟩
  | .clyde => ⟨0, 30⟩

/-- `GHOST_HOUSE_TARGET = { x: 13, y: 14 }`. -/
def GHOST_HOUSE_TARGET : Coord := ⟨13, 14⟩

/-- `CLYDE_DISTANCE_THRESHOLD = 8`. -/
def CLYDE_DISTANCE_THRESHOLD : Int := 8

/-- `PINKY_AHEAD_TILES = 4`. -/
def PINKY_AHEAD_TILES : Int := 4

/-- `getOppositeDirection` (null-propagating, as in the source). -/
def getOppositeDirection : Option Direction → Option Direction
  | none => none
  | some .up => some .down
  | some .down => some .up
  | some .left => some .right
  | some .right => some .left

/-- `distanceSquared` on grid coordinates. -/
def distanceSquared (x1 y1 x2 y2 : Int) : Int :=
  (x2 - x1) * (x2 - x1) + (y2 - y1) * (y2 - y1)

/-- `ALL_DIRECTIONS`. -/
def ALL_DIRECTIONS : List Direction := [.up, .down, .left, .right]

/-- `isWalkableForGhost`: inside the 31×28 grid and not a wall. -/
def isWalkableForGhost (x y : Int) : Bool :=
  if y < 0 ∨ 31 ≤ y ∨ x < 0 ∨ 28 ≤ x then false
  else
    match mazeCellAt x y with
    | some .wall => false
    | some _ => true
    | none => false

/-- `getNextGridPos`. -/
def getNextGridPos (x y : Int) : Direction → Coord
  | .up => ⟨x, y - 1⟩
  | .down => ⟨x, y + 1⟩
  | .left => ⟨x - 1, y⟩
  | .right => ⟨x + 1, y⟩

/-- The ghost-AI `isAlignedToGrid` with its default threshold of 2 px. -/
def isAlignedToGridAI (pixelX pixelY : ℚ) : Bool :=
  let cellCenterX := (Int.floor (pixelX / TILE_SIZE) : ℚ) * TILE_SIZE + TILE_SIZE / 2
  let cellCenterY := (Int.floor (pixelY / TILE_SIZE) : ℚ) * TILE_SIZE + TILE_SIZE / 2
  |pixelX - cellCenterX| ≤ 2 ∧ |pixelY - cellCenterY| ≤ 2

/-- `getAvailableDirections`: non-reversing directions into walkable
cells, in `ALL_DIRECTIONS` order. -/
def getAvailableDirections (x y : Int) (currentDir : Option Direction) :
    List Direction :=
  ALL_DIRECTIONS.filter (fun d =>
    (match getOppositeDirection currentDir with
     | some opp => !(decide (d = opp))
     | none => true) &&
    (let nxt := getNextGridPos x y d
     isWalkableForGhost nxt.x nxt.y))

/-- `chooseDirectionTowardTarget`: minimize squared distance, ties broken
by the fixed priority up > left > down > right; `Infinity` is modelled as
the `none` starting accumulator. -/
def chooseDirectionTowardTarget (x y targetX targetY : Int)
    (currentDir : Option Direction) : Option Direction :=
  let available := getAvailableDirections x y currentDir
  match available with
  | [] =>
      match getOppositeDirection currentDir with
      | some opp =>
          let nxt := getNextGridPos x y opp
          if isWalkableForGhost nxt.x nxt.y then some opp else none
      | none => none
  | [d] => some d
  | d0 :: _ :: _ =>
      let priorityOrder : List Direction := [.up, .left, .down, .right]
      some (priorityOrder.foldl
        (fun (best : Direction × Option Int) d =>
          if available.contains d then
            let nxt := getNextGridPos x y d
            let dist := distanceSquared nxt.x nxt.y targetX targetY
            match best.2 with
            | none => (d, some dist)
            | some bd => if dist < bd then (d, some dist) else best
          else best)
        (d0, none)).1

/-- `chooseRandomDirection`, with the `Math.random` index supplied by the
`pick` oracle (taken modulo the number of candidates). -/
def chooseRandomDirection (x y : Int) (currentDir : Option Direction)
    (pick : Nat) : Option Direction :=
  let available := getAvailableDirections x y currentDir
  match available with
  | [] => getOppositeDirection currentDir
  | _ :: _ => available.get? (pick % available.length)

/-- The per-instance closure state of `createGhostAISystem`. -/
structure GhostAIState : Type where
  currentGlobalMode : GlobalMode
  modeJustChanged : Bool
  frightenedActive : Bool
  eatenGhosts : List Nat
deriving DecidableEq, Repr

/-- Update the `velocity` component of `gid`. -/
def setVelocityComp (w : World) (gid : Nat) (v : Velocity) : World :=
  { w with entities := addComponent w.entities gid (.velocity v) }

/-- `getGhostByTypeInternal`. -/
def getGhostByTypeW (w : World) (t : GhostType) : Option Nat :=
  (getGhostEntities w).find? (fun i =>
    match storeGet w.entities.ghostAI i with
    | some ai => decide (ai.type = t)
    | none => false)

/-- `getGhostTarget`: target cell by mode and ghost identity. -/
def getGhostTarget (w : World) (gid : Nat) : Option Coord :=
  match storeGet w.entities.ghostAI gid with
  | none => none
  | some ghostAI =>
      if ghostAI.mode = .eaten then some GHOST_HOUSE_TARGET
      else if ghostAI.mode = .frightened ∨ isGhostVulnerable w gid = true then
        none
      else if ghostAI.mode = .scatter then some (scatterTargets ghostAI.type)
      else
        match getPlayerEntity w with
        | none => some (scatterTargets ghostAI.type)
        | some _ =>
            match getPlayerPosition w with
            | none => some (scatterTargets ghostAI.type)
            | some playerPos =>
                match ghostAI.type with
                | .blinky => some ⟨playerPos.gridX, playerPos.gridY⟩
                | .pinky =>
                    some (match getPlayerDirection w with
                      | some .up =>
                          ⟨playerPos.gridX - PINKY_AHEAD_TILES,
                           playerPos.gridY - PINKY_AHEAD_TILES⟩
                      | some .down =>
                          ⟨playerPos.gridX, playerPos.gridY + PINKY_AHEAD_TILES⟩
                      | some .left =>
                          ⟨playerPos.gridX - PINKY_AHEAD_TILES, playerPos.gridY⟩
                      | some .right =>
                          ⟨playerPos.gridX + PINKY_AHEAD_TILES, playerPos.gridY⟩
                      | none => ⟨playerPos.gridX, playerPos.gridY⟩)
                | .inky =>
                    match getGhostByTypeW w .blinky with
                    | none => some ⟨playerPos.gridX, playerPos.gridY⟩
                    | some blinkyId =>
                        match storeGet w.entities.position blinkyId with
                        | none => some ⟨playerPos.gridX, playerPos.gridY⟩
                        | some blinkyPos =>
                            let inter : Coord :=
                              match getPlayerDirection w with
                              | some .up => ⟨playerPos.gridX, playerPos.gridY - 2⟩
                              | some .down => ⟨playerPos.gridX, playerPos.gridY + 2⟩
                              | some .left => ⟨playerPos.gridX - 2, playerPos.gridY⟩
                              | some .right => ⟨playerPos.gridX + 2, playerPos.gridY⟩
                              | none => ⟨playerPos.gridX, playerPos.gridY⟩
                            some ⟨inter.x + (inter.x - blinkyPos.gridX),
                                  inter.y + (inter.y - blinkyPos.gridY)⟩
                | .clyde =>
                    match storeGet w.entities.position gid with
                    | none => some (scatterTargets .clyde)
                    | some ghostPos =>
                        if CLYDE_DISTANCE_THRESHOLD * CLYDE_DISTANCE_THRESHOLD <
                            distanceSquared ghostPos.gridX ghostPos.gridY
                              playerPos.gridX playerPos.gridY then
                          some ⟨playerPos.gridX, playerPos.gridY⟩
                        else some (scatterTargets .clyde)

/-- The second half of `updateGhost` (from the speed computation to the
velocity writes): mode-change reversal, direction selection, speed
update.  Factored out so that the mode-resolution results can be reasoned
about independently; `w1` is the world after the mode write. -/
def ghostVelocityStage (st : GhostAIState) (w1 : World) (gid : Nat)
    (pick : Nat) (newMode : GhostMode) (velocity : Velocity)
    (position : Position) (isVuln : Bool) : World :=
  let newSpeed := if isVuln = true then GHOST_FRIGHTENED_SPEED else GHOST_SPEED
  if st.modeJustChanged = true ∧ velocity.direction ≠ none then
    setVelocityComp w1 gid
      { velocity with
          speed := newSpeed
          direction := getOppositeDirection velocity.direction }
  else
    let aligned := isAlignedToGridAI position.pixelX position.pixelY
    if velocity.direction = none ∨ aligned = true then
      let target := getGhostTarget w1 gid
      let newDirection :=
        if newMode = .frightened then
          chooseRandomDirection position.gridX position.gridY
            velocity.direction pick
        else
          match target with
          | some t =>
              chooseDirectionTowardTarget position.gridX position.gridY
                t.x t.y velocity.direction
          | none =>
              chooseRandomDirection position.gridX position.gridY
                velocity.direction pick
      if newDirection ≠ none ∧ newDirection ≠ velocity.direction then
        setVelocityComp w1 gid
          { velocity with speed := newSpeed, direction := newDirection }
      else if velocity.speed ≠ newSpeed then
        setVelocityComp w1 gid { velocity with speed := newSpeed }
      else w1
    else if velocity.speed ≠ newSpeed then
      setVelocityComp w1 gid { velocity with speed := newSpeed }
    else w1

/-- `updateGhost`: per-ghost mode resolution, then the velocity stage.
`pick` is the random oracle for the frightened branch.  Returns the
updated world and AI state. -/
def updateGhost (st : GhostAIState) (w : World) (gid : Nat) (pick : Nat) :
    World × GhostAIState :=
  match storeGet w.entities.ghostAI gid, storeGet w.entities.velocity gid,
      storeGet w.entities.position gid with
  | some ghostAI, some velocity, some position =>
      let isVuln := isGhostVulnerable w gid
      let wasEaten := st.eatenGhosts.contains gid
      let resolved : GhostMode × GhostAIState :=
        if wasEaten then
          if 13 ≤ position.gridX ∧ position.gridX ≤ 14 ∧ position.gridY = 14 then
            (st.currentGlobalMode.toMode,
             { st with eatenGhosts := st.eatenGhosts.filter (fun x => x ≠ gid) })
          else (.eaten, st)
        else if isVuln = true then (.frightened, st)
        else if st.frightenedActive = true then (.frightened, st)
        else (st.currentGlobalMode.toMode, st)
      let newMode := resolved.1
      let st' := resolved.2
      let w1 := if newMode = ghostAI.mode then w
                else setGhostAIComp w gid { ghostAI with mode := newMode }
      (ghostVelocityStage st w1 gid pick newMode velocity position isVuln, st')
  | _, _, _ => (w, st)

/-- The `for (const ghostId of ghostIds)` loop of `GhostAISystem.update`,
threading the AI state; the `k`-th ghost consumes oracle value `picks k`. -/
def updateGhostsList (st : GhostAIState) (w : World) (picks : Nat → Nat) :
    Nat → List Nat → World × GhostAIState
  | _, [] => (w, st)
  | k, g :: rest =>
      let r := updateGhost st w g (picks k)
      updateGhostsList r.2 r.1 picks (k + 1) rest

/-- `GhostAISystem.update`: processes every ghost, then clears the
mode-change flag. -/
def ghostAIUpdate (st : GhostAIState) (w : World) (picks : Nat → Nat) :
    World × GhostAIState :=
  if w.gameState = .playing then
    let r := updateGhostsList st w picks 0 (getGhostEntities w)
    (r.1, { r.2 with modeJustChanged := false })
  else (w, st)

/-! ### Ghost-AI lemmas and claims C4, C5 -/

/-- The velocity stage touches only the `velocity` store. -/
theorem ghostVelocityStage_frame (st : GhostAIState) (w1 : World) (gid : Nat)
    (pick : Nat) (newMode : GhostMode) (velocity : Velocity)
    (position : Position) (isVuln : Bool) :
    (ghostVelocityStage st w1 gid pick newMode velocity position isVuln).entities.ghostAI =
      w1.entities.ghostAI ∧
    (ghostVelocityStage st w1 gid pick newMode velocity position isVuln).entities.alive =
      w1.entities.alive ∧
    (ghostVelocityStage st w1 gid pick newMode velocity position isVuln).entities.position =
      w1.entities.position ∧
    (ghostVelocityStage st w1 gid pick newMode velocity position isVuln).entities.vulnerable =
      w1.entities.vulnerable ∧
    (ghostVelocityStage st w1 gid pick newMode velocity position isVuln).entities.edible =
      w1.entities.edible ∧
    (ghostVelocityStage st w1 gid pick newMode velocity position isVuln).entities.powerUp =
      w1.entities.powerUp ∧
    (ghostVelocityStage st w1 gid pick newMode velocity position isVuln).entities.playerControlled =
      w1.entities.playerControlled ∧
    (ghostVelocityStage st w1 gid pick newMode velocity position isVuln).gameState =
      w1.gameState ∧
    (ghostVelocityStage st w1 gid pick newMode velocity position isVuln).lives =
      w1.lives ∧
    (ghostVelocityStage st w1 gid pick newMode velocity position isVuln).deltaTime =
      w1.deltaTime ∧
    (ghostVelocityStage st w1 gid pick newMode velocity position isVuln).powerUpTime =
      w1.powerUpTime ∧
    (ghostVelocityStage st w1 gid pick newMode velocity position isVuln).ghostEatenStreak =
      w1.ghostEatenStreak := by
  simp only [ghostVelocityStage, setVelocityComp, addComponent]
  repeat' split
  all_goals simp

/-- C5: for the ambusher (Pinky) in chase mode (not vulnerable), the
target is 4 tiles ahead of the player's grid cell in the player's current
movement direction; when the player moves up, both the vertical offset
(4 up) and the horizontal offset (4 left) apply — the preserved arcade
quirk.  Down, left and right apply only the single-axis offset. -/
theorem pinky_chase_target (w : World) (gid pid : Nat) (ai : GhostAIComp)
    (ppos : Position) (d : Direction)
    (hai : storeGet w.entities.ghostAI gid = some ai)
    (hmode : ai.mode = .chase) (htype : ai.type = .pinky)
    (hvuln : isGhostVulnerable w gid = false)
    (hpe : getPlayerEntity w = some pid)
    (hpp : storeGet w.entities.position pid = some ppos)
    (hpd : getPlayerDirection w = some d) :
    getGhostTarget w gid = some (match d with
      | .up => ⟨ppos.gridX - 4, ppos.gridY - 4⟩
      | .down => ⟨ppos.gridX, ppos.gridY + 4⟩
      | .left => ⟨ppos.gridX - 4, ppos.gridY⟩
      | .right => ⟨ppos.gridX + 4, ppos.gridY⟩) := by
  have hppos : getPlayerPosition w = some ppos := by
    simp [getPlayerPosition, hpe, hpp]
  simp only [getGhostTarget, hai, hmode, htype]
  cases d <;>
    simp [hvuln, hpe, hppos, hpd, PINKY_AHEAD_TILES]

/-- A concrete world for the C5 witness: player entity 0 at grid (14, 23)
moving up, Pinky as ghost entity 1 in chase mode. -/
def demoWorldPinky : World :=
  { entities :=
    { nextId := 2
      alive := [0, 1]
      position := [(0, ⟨14, 23, 290, 470⟩), (1, ⟨10, 10, 210, 210⟩)]
      velocity := [(0, ⟨some .up, 8 / 5, none⟩), (1, ⟨none, 3 / 2, none⟩)]
      ghostAI := [(1, ⟨.pinky, .chase, ⟨2, 0⟩⟩)]
      edible := []
      powerUp := []
      vulnerable := []
      respawnable := []
      playerControlled := [(0, ())]
      collider := [] }
    gameState := .playing
    score := 0
    lives := 3
    level := 1
    powerUpTime := 0
    deltaTime := 16
    ghostEatenStreak := 0
    initialLives := 3 }

/-- Witness for C5: with the player at (14, 23) moving up, Pinky's chase
target is (10, 19) — both offsets applied. -/
theorem pinky_chase_target_witness :
    storeGet demoWorldPinky.entities.ghostAI 1 =
      some ⟨.pinky, .chase, ⟨2, 0⟩⟩ ∧
    getPlayerDirection demoWorldPinky = some .up ∧
    getGhostTarget demoWorldPinky 1 = some ⟨14 - 4, 23 - 4⟩ :=
  ⟨rfl, rfl,
   pinky_chase_target demoWorldPinky 1 0 ⟨.pinky, .chase, ⟨2, 0⟩⟩
     ⟨14, 23, 290, 470⟩ .up rfl rfl rfl rfl rfl rfl rfl⟩

/-- The velocity stage never changes a ghost's mode. -/
theorem getGhostMode_velStage (st : GhostAIState) (w1 : World) (gid : Nat)
    (pick : Nat) (nm : GhostMode) (vel : Velocity) (pos : Position)
    (iv : Bool) (j : Nat) :
    getGhostMode (ghostVelocityStage st w1 gid pick nm vel pos iv) j =
      getGhostMode w1 j := by
  simp only [getGhostMode,
    (ghostVelocityStage_frame st w1 gid pick nm vel pos iv).1]

/-- Writing a `ghostAI` component on a live entity makes its mode
readable. -/
theorem getGhostMode_setSelf (w : World) (gid : Nat) (c : GhostAIComp)
    (h : w.entities.alive.contains gid = true) :
    getGhostMode (setGhostAIComp w gid c) gid = some c.mode := by
  have hm : gid ∈ w.entities.alive := List.elem_iff.mp h
  simp [getGhostMode, setGhostAIComp, addComponent, h, hm, storeGet_set_self]

/-- C4 (amended): for a ghost in the pending-eaten set with its
components present, the per-tick mode resolution keeps mode `eaten` (and
the ghost-house coordinate as target) as long as the ghost's grid position
is outside the two-cell ghost-house region `x ∈ {13, 14}, y = 14`; exactly
when the grid position enters that region (which contains the target cell
(13, 14)), the ghost is removed from the pending set and its mode reverts
to the current global mode. -/
theorem updateGhost_pending_eaten (st : GhostAIState) (w : World) (gid : Nat)
    (pick : Nat) (ai : GhostAIComp) (vel : Velocity) (pos : Position)
    (hai : storeGet w.entities.ghostAI gid = some ai)
    (hvel : storeGet w.entities.velocity gid = some vel)
    (hpos : storeGet w.entities.position gid = some pos)
    (halive : isAlive w.entities gid = true)
    (hpend : gid ∈ st.eatenGhosts) :
    (¬(13 ≤ pos.gridX ∧ pos.gridX ≤ 14 ∧ pos.gridY = 14) →
      getGhostMode (updateGhost st w gid pick).1 gid = some .eaten ∧
      gid ∈ (updateGhost st w gid pick).2.eatenGhosts ∧
      getGhostTarget (updateGhost st w gid pick).1 gid =
        some GHOST_HOUSE_TARGET) ∧
    ((13 ≤ pos.gridX ∧ pos.gridX ≤ 14 ∧ pos.gridY = 14) →
      getGhostMode (updateGhost st w gid pick).1 gid =
        some st.currentGlobalMode.toMode ∧
      gid ∉ (updateGhost st w gid pick).2.eatenGhosts) := by
  have hcont : st.eatenGhosts.contains gid = true := List.elem_iff.mpr hpend
  have halivec : w.entities.alive.contains gid = true := halive
  have hmodeW1 : ∀ nm : GhostMode,
      getGhostMode (if nm = ai.mode then w
        else setGhostAIComp w gid { ai with mode := nm }) gid = some nm := by
    intro nm
    split
    · rename_i hh
      simp [getGhostMode, hai, hh]
    · exact getGhostMode_setSelf w gid _ halivec
  constructor
  · intro hreg
    simp only [updateGhost, hai, hvel, hpos, hcont, if_pos, if_neg hreg]
    have hmode : getGhostMode (ghostVelocityStage st
        (if GhostMode.eaten = ai.mode then w
         else setGhostAIComp w gid { ai with mode := .eaten })
        gid pick .eaten vel pos (isGhostVulnerable w gid)) gid =
        some .eaten := by
      rw [getGhostMode_velStage]
      exact hmodeW1 .eaten
    refine ⟨hmode, by simpa using hpend, ?_⟩
    rcases Option.map_eq_some'.mp hmode with ⟨ai', hai', hm2⟩
    simp [getGhostTarget, hai', hm2]
  · intro hreg
    simp only [updateGhost, hai, hvel, hpos, hcont, if_pos, hreg]
    refine ⟨?_, ?_⟩
    · rw [getGhostMode_velStage]
      exact hmodeW1 st.currentGlobalMode.toMode
    · simp [List.mem_filter]

/-- Ghost-AI instance state for the C4 concrete runs: scatter global mode,
mode-change flag set, ghost 1 pending-eaten. -/
def cexGhostStC4 : GhostAIState := ⟨.scatter, true, false, [1]⟩

/-- World with pending-eaten ghost 1 at grid (14, 14): inside the release
region but not at the ghost-house target cell (13, 14). -/
def cexWorldC4 : World :=
  { entities :=
    { nextId := 2
      alive := [1]
      position := [(1, ⟨14, 14, 290, 290⟩)]
      velocity := [(1, ⟨some .up, 3 / 2, none⟩)]
      ghostAI := [(1, ⟨.blinky, .scatter, ⟨25, 0⟩⟩)]
      edible := []
      powerUp := []
      vulnerable := []
      respawnable := []
      playerControlled := []
      collider := [] }
    gameState := .playing
    score := 0
    lives := 3
    level := 1
    powerUpTime := 0
    deltaTime := 16
    ghostEatenStreak := 0
    initialLives := 3 }

/-- World with pending-eaten ghost 1 at grid (20, 20): outside the
release region. -/
def cexWorldC4b : World :=
  { entities :=
    { nextId := 2
      alive := [1]
      position := [(1, ⟨20, 20, 410, 410⟩)]
      velocity := [(1, ⟨some .up, 3 / 2, none⟩)]
      ghostAI := [(1, ⟨.blinky, .scatter, ⟨25, 0⟩⟩)]
      edible := []
      powerUp := []
      vulnerable := []
      respawnable := []
      playerControlled := []
      collider := [] }
    gameState := .playing
    score := 0
    lives := 3
    level := 1
    powerUpTime := 0
    deltaTime := 16
    ghostEatenStreak := 0
    initialLives := 3 }

/-- C4 counterexample: the claim as stated says a pending-eaten ghost
keeps mode `eaten` until its grid position reaches the ghost-house target
cell (13, 14).  At grid (14, 14) — not the target cell — the code already
removes the ghost from the pending set and reverts its mode to the global
mode (`scatter` here), because the release test accepts the whole region
`x ∈ {13, 14}, y = 14`. -/
theorem updateGhost_release_region_counterexample :
    (storeGet cexWorldC4.entities.position 1).map
      (fun p => (p.gridX, p.gridY)) = some (14, 14) ∧
    ((14 : Int), (14 : Int)) ≠ (GHOST_HOUSE_TARGET.x, GHOST_HOUSE_TARGET.y) ∧
    1 ∈ cexGhostStC4.eatenGhosts ∧
    getGhostMode (updateGhost cexGhostStC4 cexWorldC4 1 0).1 1 =
      some .scatter ∧
    1 ∉ (updateGhost cexGhostStC4 cexWorldC4 1 0).2.eatenGhosts := by
  refine ⟨rfl, by decide, by decide, ?_, ?_⟩ <;>
    simp [updateGhost, cexWorldC4, cexGhostStC4, storeGet, isGhostVulnerable,
      ghostVelocityStage, setVelocityComp, setGhostAIComp, addComponent,
      getGhostMode, GlobalMode.toMode, GHOST_SPEED, GHOST_FRIGHTENED_SPEED]

/-- Witness for the amended C4 at a pending-eaten ghost outside the
release region: it keeps mode `eaten`, stays pending, and targets the
ghost house. -/
theorem updateGhost_pending_eaten_witness :
    storeGet cexWorldC4b.entities.ghostAI 1 =
      some ⟨.blinky, .scatter, ⟨25, 0⟩⟩ ∧
    isAlive cexWorldC4b.entities 1 = true ∧
    1 ∈ cexGhostStC4.eatenGhosts ∧
    ¬(13 ≤ (20 : Int) ∧ (20 : Int) ≤ 14 ∧ (20 : Int) = 14) ∧
    getGhostMode (updateGhost cexGhostStC4 cexWorldC4b 1 0).1 1 =
      some .eaten :=
  ⟨rfl, rfl, by decide, by decide,
   ((updateGhost_pending_eaten cexGhostStC4 cexWorldC4b 1 0
      ⟨.blinky, .scatter, ⟨25, 0⟩⟩ ⟨some .up, 3 / 2, none⟩
      ⟨20, 20, 410, 410⟩ rfl rfl rfl rfl (by decide)).1 (by decide)).1⟩

/-! ### Movement System (`MovementSystem.ts`) -/

/-- `TUNNEL_ROW = 14`. -/
def TUNNEL_ROW : Int := 14

/-- The movement system's `isWalkable` over the original maze: out of
bounds rows are unwalkable; out of bounds columns are walkable only on the
tunnel row; walls never walkable; ghost house and door unwalkable for the
player only. -/
def isWalkable (gridX gridY : Int) (isPlayer : Bool) : Bool :=
  if gridY < 0 ∨ 31 ≤ gridY then false
  else if gridX < 0 ∨ 28 ≤ gridX then decide (gridY = TUNNEL_ROW)
  else
    match mazeCellAt gridX gridY with
    | some .wall => false
    | some .ghostHouse => !isPlayer
    | some .ghostDoor => !isPlayer
    | some _ => true
    | none => false

/-- The movement system's `isAlignedToGrid` with its default threshold of
a quarter tile (5 px). -/
def isAlignedToGridMov (pixelX pixelY : ℚ) : Bool :=
  let cellCenterX := (Int.floor (pixelX / TILE_SIZE) : ℚ) * TILE_SIZE + TILE_SIZE / 2
  let cellCenterY := (Int.floor (pixelY / TILE_SIZE) : ℚ) * TILE_SIZE + TILE_SIZE / 2
  |pixelX - cellCenterX| ≤ TILE_SIZE / 4 ∧ |pixelY - cellCenterY| ≤ TILE_SIZE / 4

/-- The four-case `isReverse` test. -/
def isReverseTurn (cur : Option Direction) (nxt : Direction) : Bool :=
  (decide (cur = some .left) && decide (nxt = .right)) ||
  (decide (cur = some .right) && decide (nxt = .left)) ||
  (decide (cur = some .up) && decide (nxt = .down)) ||
  (decide (cur = some .down) && decide (nxt = .up))

/-- One entity's step of `MovementSystem.update` (the loop body): turn
application, displacement, tunnel wraparound, wall collision, write-back.
Grid coordinates are recomputed from the pixel position on entry. -/
def moveEntity (pos : Position) (vel : Velocity) (isPlayer : Bool)
    (dt : ℚ) : Position × Velocity :=
  if vel.direction = none ∧ vel.nextDirection = none then (pos, vel)
  else
    let gridX0 : Int := Int.floor (pos.pixelX / TILE_SIZE)
    let gridY0 : Int := Int.floor (pos.pixelY / TILE_SIZE)
    -- apply a queued turn
    let turn : Option Direction × Option Direction × ℚ × ℚ :=
      match vel.nextDirection with
      | none => (vel.direction, none, pos.pixelX, pos.pixelY)
      | some nd =>
          if isReverseTurn vel.direction nd then
            (some nd, none, pos.pixelX, pos.pixelY)
          else if isAlignedToGridMov pos.pixelX pos.pixelY then
            let nxt := getNextGridPos gridX0 gridY0 nd
            if isWalkable nxt.x nxt.y isPlayer then
              (some nd, none,
               (gridX0 : ℚ) * TILE_SIZE + TILE_SIZE / 2,
               (gridY0 : ℚ) * TILE_SIZE + TILE_SIZE / 2)
            else (vel.direction, some nd, pos.pixelX, pos.pixelY)
          else (vel.direction, some nd, pos.pixelX, pos.pixelY)
    let currentDirection := turn.1
    let nextDirection := turn.2.1
    let pixelX := turn.2.2.1
    let pixelY := turn.2.2.2
    match currentDirection with
    | none =>
        (⟨gridX0, gridY0, pixelX, pixelY⟩,
         { vel with direction := currentDirection, nextDirection := nextDirection })
    | some cd =>
        let speed := vel.speed * (dt / (1667 / 100))
        let moved : ℚ × ℚ :=
          match cd with
          | .up => (pixelX, pixelY - speed)
          | .down => (pixelX, pixelY + speed)
          | .left => (pixelX - speed, pixelY)
          | .right => (pixelX + speed, pixelY)
        let newPixelX0 := moved.1
        let newPixelY := moved.2
        -- tunnel wraparound
        let newPixelX :=
          if gridY0 = TUNNEL_ROW then
            if newPixelX0 < 0 then (MAZE_WIDTH : ℚ) * TILE_SIZE + newPixelX0
            else if (MAZE_WIDTH : ℚ) * TILE_SIZE ≤ newPixelX0 then
              newPixelX0 - (MAZE_WIDTH : ℚ) * TILE_SIZE
            else newPixelX0
          else newPixelX0
        -- wall collision on the leading edge
        let hit : Bool × ℚ × ℚ :=
          match cd with
          | .right =>
              let edgeX : Int := Int.floor ((newPixelX + TILE_SIZE / 2 - 1) / TILE_SIZE)
              if !isWalkable edgeX gridY0 isPlayer then
                (false, (gridX0 + 1 : ℚ) * TILE_SIZE - TILE_SIZE / 2, pixelY)
              else (true, pixelX, pixelY)
          | .left =>
              let edgeX : Int := Int.floor ((newPixelX - TILE_SIZE / 2) / TILE_SIZE)
              if !isWalkable edgeX gridY0 isPlayer then
                (false, (gridX0 : ℚ) * TILE_SIZE + TILE_SIZE / 2, pixelY)
              else (true, pixelX, pixelY)
          | .down =>
              let edgeY : Int := Int.floor ((newPixelY + TILE_SIZE / 2 - 1) / TILE_SIZE)
              if !isWalkable gridX0 edgeY isPlayer then
                (false, pixelX, (gridY0 + 1 : ℚ) * TILE_SIZE - TILE_SIZE / 2)
              else (true, pixelX, pixelY)
          | .up =>
              let edgeY : Int := Int.floor ((newPixelY - TILE_SIZE / 2) / TILE_SIZE)
              if !isWalkable gridX0 edgeY isPlayer then
                (false, pixelX, (gridY0 : ℚ) * TILE_SIZE + TILE_SIZE / 2)
              else (true, pixelX, pixelY)
        if hit.1 then
          let fx := newPixelX
          let fy := newPixelY
          let gX : Int := max 0 (min (MAZE_WIDTH - 1) (Int.floor (fx / TILE_SIZE)))
          let gY : Int := max 0 (min 30 (Int.floor (fy / TILE_SIZE)))
          (⟨gX, gY, fx, fy⟩,
           { vel with direction := currentDirection, nextDirection := nextDirection })
        else
          (⟨gridX0, gridY0, hit.2.1, hit.2.2⟩,
           { vel with direction := currentDirection, nextDirection := nextDirection })

/-- The `MovementSystem.update` loop body applied to one entity id,
reading and writing its components. -/
def moveEntityInWorld (w : World) (i : Nat) : World :=
  match storeGet w.entities.position i, storeGet w.entities.velocity i with
  | some pos, some vel =>
      let isPlayer := hasComponent w.entities i .playerControlled
      let r := moveEntity pos vel isPlayer w.deltaTime
      let w1 := { w with entities := addComponent w.entities i (.position r.1) }
      { w1 with entities := addComponent w1.entities i (.velocity r.2) }
  | _, _ => w

/-- `MovementSystem.update`: no-op unless playing with nonzero delta
time; otherwise advances every entity holding position and velocity. -/
def movementUpdate (w : World) : World :=
  if w.gameState = .playing then
    if w.deltaTime = 0 then w
    else
      (getEntitiesWithComponents w.entities [.position, .velocity]).foldl
        moveEntityInWorld w
  else w

/-! ### Claim C8: tunnel wraparound -/

/-- C8: during a movement tick for an entity on the tunnel row (pre-move
grid row 14) with no queued turn, if the tentative pixel X falls outside
`[0, MAZE_WIDTH * TILE_SIZE)` by less than one tile, it is wrapped to the
opposite edge by adding (left exit) or subtracting (right exit) the maze
pixel width, the row is preserved, and the move is accepted (the
re-entry cells of row 14 are walkable): the entity re-enters at the
mirrored opposite-edge position. -/
theorem moveEntity_tunnel_wrap (pos : Position) (s dt : ℚ)
    (hrow : Int.floor (pos.pixelY / TILE_SIZE) = 14) :
    ((pos.pixelX - s * (dt / (1667 / 100)) < 0 →
      -20 ≤ pos.pixelX - s * (dt / (1667 / 100)) →
      (moveEntity pos ⟨some .left, s, none⟩ false dt).1.pixelX =
        (MAZE_WIDTH : ℚ) * TILE_SIZE + (pos.pixelX - s * (dt / (1667 / 100))) ∧
      (moveEntity pos ⟨some .left, s, none⟩ false dt).1.pixelY = pos.pixelY ∧
      (moveEntity pos ⟨some .left, s, none⟩ false dt).1.gridY = 14)) ∧
    ((MAZE_WIDTH : ℚ) * TILE_SIZE ≤ pos.pixelX + s * (dt / (1667 / 100)) →
      pos.pixelX + s * (dt / (1667 / 100)) <
        (MAZE_WIDTH : ℚ) * TILE_SIZE + 20 →
      (moveEntity pos ⟨some .right, s, none⟩ false dt).1.pixelX =
        pos.pixelX + s * (dt / (1667 / 100)) - (MAZE_WIDTH : ℚ) * TILE_SIZE ∧
      (moveEntity pos ⟨some .right, s, none⟩ false dt).1.pixelY = pos.pixelY ∧
      (moveEntity pos ⟨some .right, s, none⟩ false dt).1.gridY = 14) := by
  constructor
  · intro h1 h2
    have e1 : (26 : Int) ≤ Int.floor
        (((MAZE_WIDTH : ℚ) * TILE_SIZE + (pos.pixelX - s * (dt / (1667 / 100))) -
          TILE_SIZE / 2) / TILE_SIZE) := by
      rw [Int.le_floor]
      rw [le_div_iff₀ (by norm_num [TILE_SIZE] : (0:ℚ) < TILE_SIZE)]
      push_cast [TILE_SIZE, MAZE_WIDTH]
      linarith
    have e2 : Int.floor
        (((MAZE_WIDTH : ℚ) * TILE_SIZE + (pos.pixelX - s * (dt / (1667 / 100))) -
          TILE_SIZE / 2) / TILE_SIZE) < 28 := by
      rw [Int.floor_lt]
      rw [div_lt_iff₀ (by norm_num [TILE_SIZE] : (0:ℚ) < TILE_SIZE)]
      push_cast [TILE_SIZE, MAZE_WIDTH]
      linarith
    have hwalk : isWalkable (Int.floor
        (((MAZE_WIDTH : ℚ) * TILE_SIZE + (pos.pixelX - s * (dt / (1667 / 100))) -
          TILE_SIZE / 2) / TILE_SIZE)) 14 false = true := by
      have hc : Int.floor
          (((MAZE_WIDTH : ℚ) * TILE_SIZE + (pos.pixelX - s * (dt / (1667 / 100))) -
            TILE_SIZE / 2) / TILE_SIZE) = 26 ∨
          Int.floor
          (((MAZE_WIDTH : ℚ) * TILE_SIZE + (pos.pixelX - s * (dt / (1667 / 100))) -
            TILE_SIZE / 2) / TILE_SIZE) = 27 := by omega
      rcases hc with hc | hc <;> rw [hc] <;> decide
    refine ⟨?_, ?_, ?_⟩ <;>
      simp [moveEntity, hrow, TUNNEL_ROW, h1, hwalk]
  · intro h1 h2
    have h1' : ¬(pos.pixelX + s * (dt / (1667 / 100)) < 0) := by
      intro hc
      have : (0:ℚ) < (MAZE_WIDTH : ℚ) * TILE_SIZE := by
        norm_num [TILE_SIZE, MAZE_WIDTH]
      linarith
    have e1 : (0 : Int) ≤ Int.floor
        ((pos.pixelX + s * (dt / (1667 / 100)) - (MAZE_WIDTH : ℚ) * TILE_SIZE +
          TILE_SIZE / 2 - 1) / TILE_SIZE) := by
      rw [Int.le_floor]
      rw [le_div_iff₀ (by norm_num [TILE_SIZE] : (0:ℚ) < TILE_SIZE)]
      push_cast [TILE_SIZE, MAZE_WIDTH] at h1 h2 ⊢
      linarith
    have e2 : Int.floor
        ((pos.pixelX + s * (dt / (1667 / 100)) - (MAZE_WIDTH : ℚ) * TILE_SIZE +
          TILE_SIZE / 2 - 1) / TILE_SIZE) < 2 := by
      rw [Int.floor_lt]
      rw [div_lt_iff₀ (by norm_num [TILE_SIZE] : (0:ℚ) < TILE_SIZE)]
      push_cast [TILE_SIZE, MAZE_WIDTH] at h1 h2 ⊢
      linarith
    have hwalk : isWalkable (Int.floor
        ((pos.pixelX + s * (dt / (1667 / 100)) - (MAZE_WIDTH : ℚ) * TILE_SIZE +
          TILE_SIZE / 2 - 1) / TILE_SIZE)) 14 false = true := by
      have hc : Int.floor
          ((pos.pixelX + s * (dt / (1667 / 100)) - (MAZE_WIDTH : ℚ) * TILE_SIZE +
            TILE_SIZE / 2 - 1) / TILE_SIZE) = 0 ∨
          Int.floor
          ((pos.pixelX + s * (dt / (1667 / 100)) - (MAZE_WIDTH : ℚ) * TILE_SIZE +
            TILE_SIZE / 2 - 1) / TILE_SIZE) = 1 := by omega
      rcases hc with hc | hc <;> rw [hc] <;> decide
    refine ⟨?_, ?_, ?_⟩ <;>
      simp [moveEntity, hrow, TUNNEL_ROW, h1, h1', hwalk]

/-- Witness for C8: an entity at pixel X 5 on the tunnel row moving left
with speed 2 for a 100 ms tick exits the left edge and re-enters at
`560 + (5 - 2 * (100 / 16.67))`. -/
theorem moveEntity_tunnel_wrap_witness :
    Int.floor ((290 : ℚ) / TILE_SIZE) = 14 ∧
    (5 : ℚ) - 2 * (100 / (1667 / 100)) < 0 ∧
    (-20 : ℚ) ≤ 5 - 2 * (100 / (1667 / 100)) ∧
    (moveEntity ⟨0, 14, 5, 290⟩ ⟨some .left, 2, none⟩ false 100).1.pixelX =
      (MAZE_WIDTH : ℚ) * TILE_SIZE + (5 - 2 * (100 / (1667 / 100))) :=
  ⟨by norm_num [TILE_SIZE], by norm_num, by norm_num,
   (((moveEntity_tunnel_wrap ⟨0, 14, 5, 290⟩ 2 100
      (by norm_num [TILE_SIZE])).1 (by norm_num) (by norm_num)).1)⟩

/-! ### Input System (`InputSystem.ts`) and claim C10 -/

/-- The pending-input closure state of `createInputSystem`. -/
structure InputState : Type where
  pendingDirection : Option Direction
  pendingStart : Bool
  pendingPause : Bool
  pendingRestart : Bool
deriving DecidableEq, Repr

/-- The cleared pending state. -/
def clearedInput : InputState := ⟨none, false, false, false⟩

/-- `InputSystem.update`: restart short-circuits everything; otherwise
start, pause/resume, and direction are applied in order and the pending
state is cleared. -/
def inputUpdate (st : InputState) (w : World) :
    InputState × World × List GameEvent :=
  if st.pendingRestart = true then
    (clearedInput, w, [.gameRestart])
  else
    let w1 := if st.pendingStart = true ∧ w.gameState = .ready
              then setGameState w .playing else w
    let w2 :=
      if st.pendingPause = true then
        if w1.gameState = .playing then setGameState w1 .paused
        else if w1.gameState = .paused then setGameState w1 .playing
        else w1
      else w1
    let w3 :=
      match st.pendingDirection with
      | none => w2
      | some d =>
          match getPlayerEntity w2 with
          | none => w2
          | some pid =>
              match storeGet w2.entities.velocity pid with
              | none => w2
              | some v =>
                  { w2 with entities := (addComponent w2.entities pid
                      (.velocity { v with nextDirection := some d })) }
    (clearedInput, w3, [])

/-- C10: whenever a restart input is pending, `InputSystem.update`
dispatches exactly one `game:restart` event, clears every pending input
(direction, start, pause and restart alike), and returns the world
completely unchanged — no game-state or player-velocity mutation happens
that tick. -/
theorem inputUpdate_restart (st : InputState) (w : World)
    (h : st.pendingRestart = true) :
    inputUpdate st w = (clearedInput, w, [.gameRestart]) := by
  simp [inputUpdate, h]

/-- Witness for C10 at a concrete pending state with simultaneously
pending direction, start and pause inputs. -/
theorem inputUpdate_restart_witness :
    InputState.pendingRestart ⟨some .left, true, true, true⟩ = true ∧
    inputUpdate ⟨some .left, true, true, true⟩ demoWorldDeath =
      (clearedInput, demoWorldDeath, [.gameRestart]) :=
  ⟨rfl, inputUpdate_restart ⟨some .left, true, true, true⟩ demoWorldDeath rfl⟩

/-! ### Eating System (`EatingSystem.ts`) -/

/-- The eating-range test (threshold `TILE_SIZE * 0.8 = 16`, identical to
the collision threshold; squared comparison as for `areColliding`). -/
def pelletColliding (playerPos pelletPos : Position) : Bool :=
  let dx := playerPos.pixelX - pelletPos.pixelX
  let dy := playerPos.pixelY - pelletPos.pixelY
  dx * dx + dy * dy < (16 : ℚ) * 16

/-- The `for (const pelletId of eatenPellets)` loop: score, power-up
timer/streak for power pellets, events, destruction. -/
def eatProcess (w : World) : List Nat → World × List GameEvent
  | [] => (w, [])
  | pid :: rest =>
      let points := ((storeGet w.entities.edible pid).map (·.points)).getD 10
      let position := (storeGet w.entities.position pid).getD ⟨0, 0, 0, 0⟩
      let w1 := addScore w points
      let step : World × List GameEvent :=
        match storeGet w.entities.powerUp pid with
        | some pu =>
            (resetGhostEatenStreak (setPowerUpTime w1 pu.duration),
             [.powerPelletEaten pid position points pu.duration,
              .powerUpStarted pu.duration])
        | none => (w1, [.pelletEaten pid position points])
      let w3 := { step.1 with entities := destroyEntity step.1.entities pid }
      let r := eatProcess w3 rest
      (r.1, step.2 ++ r.2)

/-- The pellets within eating range of the player, in pellet-query
order. -/
def eatenPellets (w : World) (playerPos : Position) : List Nat :=
  (getAllPellets w).filter (fun pid =>
    match storeGet w.entities.position pid with
    | some pp => pelletColliding playerPos pp
    | none => false)

/-- `EatingSystem.update`. -/
def eatingUpdate (w : World) : World × List GameEvent :=
  if w.gameState = .playing then
    match getPlayerEntity w with
    | none => (w, [])
    | some _ =>
        match getPlayerPosition w with
        | none => (w, [])
        | some playerPos =>
            let eaten := eatenPellets w playerPos
            let r := eatProcess w eaten
            if 0 < eaten.length ∧ getRemainingPelletCount r.1 = 0 then
              (setGameState r.1 .won,
               r.2 ++ [.levelComplete r.1.level r.1.score])
            else r
  else (w, [])

/-! ### Power-Up System (`PowerUpSystem.ts`) -/

/-- The per-instance closure state of `createPowerUpSystem`. -/
structure PowerUpState : Type where
  wasActive : Bool
  warningDispatched : Bool
deriving DecidableEq, Repr

/-- The start-edge loop: give `Vulnerable(powerUpTime, false)` to every
ghost lacking it. -/
def grantVulnerability (m : EntityManager) (t : ℚ) : List Nat → EntityManager
  | [] => m
  | g :: rest =>
      let m1 := if hasComponent m g .vulnerable then m
                else addComponent m g (.vulnerable ⟨t, false⟩)
      grantVulnerability m1 t rest

/-- The timer loop: overwrite every present `Vulnerable` with the new
remaining time and flashing flag. -/
def updateVulnTimers (m : EntityManager) (t : ℚ) (fl : Bool) :
    List Nat → EntityManager
  | [] => m
  | g :: rest =>
      let m1 := match storeGet m.vulnerable g with
        | some _ => addComponent m g (.vulnerable ⟨t, fl⟩)
        | none => m
      updateVulnTimers m1 t fl rest

/-- The end-of-power-up loop: remove `Vulnerable` from every ghost. -/
def removeVulnAll (m : EntityManager) : List Nat → EntityManager
  | [] => m
  | g :: rest => removeVulnAll (removeComponent m g .vulnerable) rest

/-- `PowerUpSystem.update`. -/
def powerUpUpdate (st : PowerUpState) (w : World) :
    World × PowerUpState × List GameEvent :=
  if w.gameState = .playing then
    let powerUpTime := w.powerUpTime
    let isActive := 0 < powerUpTime
    let start : World × Bool :=
      if isActive ∧ st.wasActive = false then
        ({ w with entities := (grantVulnerability w.entities powerUpTime
            (getGhostEntities w)) }, false)
      else (w, st.warningDispatched)
    let w1 := start.1
    let warning1 := start.2
    if isActive then
      let w2 := decreasePowerUpTime w1 w.deltaTime
      let newTime := w2.powerUpTime
      let ghosts := getGhostEntities w2
      let shouldFlash := newTime ≤ POWER_WARNING_TIME
      let w3 := { w2 with entities := (updateVulnTimers w2.entities newTime
        shouldFlash ghosts) }
      let warn : Bool × List GameEvent :=
        if shouldFlash ∧ warning1 = false then
          (true, [.powerUpWarning newTime])
        else (warning1, [])
      let finish : World × List GameEvent :=
        if newTime = 0 then
          (resetGhostEatenStreak
            { w3 with entities := removeVulnAll w3.entities ghosts },
           [.powerUpEnded])
        else (w3, [])
      (finish.1, ⟨decide (0 < finish.1.powerUpTime), warn.1⟩,
       warn.2 ++ finish.2)
    else
      (w1, ⟨decide (0 < w1.powerUpTime), warning1⟩, [])
  else (w, st, [])

/-! ### The fixed-order pipeline (`GameController.update`) -/

/-- The combined per-tick state: the world plus the per-system closure
states of the constructed system instances. -/
structure PipelineState : Type where
  world : World
  inputSt : InputState
  ghostSt : GhostAIState
  powerSt : PowerUpState

/-- The ghost-AI system's event-bus subscriptions (`ghost:mode`,
`powerup:started`, `powerup:ended`, `ghost:eaten`), applied to a batch of
dispatched events. -/
def applyGhostHandlers (st : GhostAIState) : List GameEvent → GhostAIState
  | [] => st
  | ev :: rest =>
      let st1 :=
        match ev with
        | .ghostModeChange m =>
            { st with currentGlobalMode := m, modeJustChanged := true }
        | .powerUpStarted _ =>
            { st with frightenedActive := true, modeJustChanged := true }
        | .powerUpEnded =>
            { st with frightenedActive := false, modeJustChanged := true }
        | .ghostEaten g _ _ _ _ =>
            { st with eatenGhosts :=
                if st.eatenGhosts.contains g then st.eatenGhosts
                else st.eatenGhosts ++ [g] }
        | _ => st
      applyGhostHandlers st1 rest

/-- The controller's `player:died` subscription: enter the `dying` state
when lives remain. -/
def applyControllerHandlers (w : World) : List GameEvent → World
  | [] => w
  | .playerDied lr :: rest =>
      applyControllerHandlers (if 0 < lr then setGameState w .dying else w) rest
  | _ :: rest => applyControllerHandlers w rest

/-- One tick of the full fixed-order pipeline: Input, GhostAI, Movement,
Eating, PowerUp, Collision, with each system's dispatched events applied
to the subscribed handler state.  Within one tick no system re-reads the
handler state another system's events have just updated, so applying each
batch right after its producing system is equivalent to dispatch-time
delivery. -/
def pipelineTick (ps : PipelineState) (picks : Nat → Nat) :
    PipelineState × List GameEvent :=
  let ri := inputUpdate ps.inputSt ps.world
  let rg := ghostAIUpdate ps.ghostSt ri.2.1 picks
  let w3 := movementUpdate rg.1
  let re := eatingUpdate w3
  let gst2 := applyGhostHandlers rg.2 re.2
  let rp := powerUpUpdate ps.powerSt re.1
  let gst3 := applyGhostHandlers gst2 rp.2.2
  let rc := collisionUpdate rp.1
  let gst4 := applyGhostHandlers gst3 rc.2
  let w7 := applyControllerHandlers rc.1 rc.2
  (⟨w7, ri.1, gst4, rp.2.1⟩, ri.2.2 ++ re.2 ++ rp.2.2 ++ rc.2)

/-- Pipeline state for the C1 counterexample: player 0, non-vulnerable
ghost 1 and power pellet 2 all at grid (1, 3) — and the power pellet is
the last remaining pellet. -/
def cexPipeC1 : PipelineState :=
  { world :=
    { entities :=
      { nextId := 3
        alive := [0, 1, 2]
        position := [(0, ⟨1, 3, 30, 70⟩), (1, ⟨1, 3, 30, 70⟩),
          (2, ⟨1, 3, 30, 70⟩)]
        velocity := [(0, ⟨none, 2, none⟩), (1, ⟨some .up, 3 / 2, none⟩)]
        ghostAI := [(1, ⟨.blinky, .scatter, ⟨25, 0⟩⟩)]
        edible := [(2, ⟨50⟩)]
        powerUp := [(2, ⟨6000⟩)]
        vulnerable := []
        respawnable := []
        playerControlled := [(0, ())]
        collider := [] }
      gameState := .playing
      score := 0
      lives := 3
      level := 1
      powerUpTime := 0
      deltaTime := 0
      ghostEatenStreak := 0
      initialLives := 3 }
    inputSt := clearedInput
    ghostSt := ⟨.scatter, true, false, []⟩
    powerSt := ⟨false, false⟩ }

/-- The world after the ghost-AI stage of the C1 counterexample tick:
only the ghost's velocity changed (mode-change reversal up → down). -/
def cexWorldA : World :=
  { entities :=
    { nextId := 3
      alive := [0, 1, 2]
      position := [(0, ⟨1, 3, 30, 70⟩), (1, ⟨1, 3, 30, 70⟩),
        (2, ⟨1, 3, 30, 70⟩)]
      velocity := [(0, ⟨none, 2, none⟩), (1, ⟨some .down, 3 / 2, none⟩)]
      ghostAI := [(1, ⟨.blinky, .scatter, ⟨25, 0⟩⟩)]
      edible := [(2, ⟨50⟩)]
      powerUp := [(2, ⟨6000⟩)]
      vulnerable := []
      respawnable := []
      playerControlled := [(0, ())]
      collider := [] }
    gameState := .playing
    score := 0
    lives := 3
    level := 1
    powerUpTime := 0
    deltaTime := 0
    ghostEatenStreak := 0
    initialLives := 3 }

/-- The world after the eating stage of the C1 counterexample tick: the
power pellet was consumed and was the last pellet, so the game is won. -/
def cexWorldB : World :=
  { entities :=
    { nextId := 3
      alive := [0, 1]
      position := [(0, ⟨1, 3, 30, 70⟩), (1, ⟨1, 3, 30, 70⟩)]
      velocity := [(0, ⟨none, 2, none⟩), (1, ⟨some .down, 3 / 2, none⟩)]
      ghostAI := [(1, ⟨.blinky, .scatter, ⟨25, 0⟩⟩)]
      edible := []
      powerUp := []
      vulnerable := []
      respawnable := []
      playerControlled := [(0, ())]
      collider := [] }
    gameState := .won
    score := 50
    lives := 3
    level := 1
    powerUpTime := 6000
    deltaTime := 0
    ghostEatenStreak := 0
    initialLives := 3 }

set_option maxHeartbeats 1600000 in
/-- C1 counterexample: in `cexPipeC1` the player, a non-vulnerable ghost
and a power pellet share one position and the game is playing, yet one
full pipeline tick dispatches NO ghost-eaten event, because the power
pellet was the last pellet: Eating sets `gameState = won` and the
Collision system (which runs only while playing) never evaluates the
overlap.  Lives are not reduced, but the claim's required ghost-eaten
dispatch does not happen. -/
theorem pipeline_power_pellet_counterexample :
    cexPipeC1.world.gameState = .playing ∧
    storeGet cexPipeC1.world.entities.position 0 = some ⟨1, 3, 30, 70⟩ ∧
    storeGet cexPipeC1.world.entities.position 1 = some ⟨1, 3, 30, 70⟩ ∧
    storeGet cexPipeC1.world.entities.position 2 = some ⟨1, 3, 30, 70⟩ ∧
    isGhostVulnerable cexPipeC1.world 1 = false ∧
    storeGet cexPipeC1.world.entities.powerUp 2 = some ⟨6000⟩ ∧
    (pipelineTick cexPipeC1 (fun _ => 0)).1.world.lives = 3 ∧
    (pipelineTick cexPipeC1 (fun _ => 0)).2.countP
      (fun e => isGhostEatenEv e) = 0 := by
  have hIn : inputUpdate clearedInput cexPipeC1.world =
      (clearedInput, cexPipeC1.world, []) := by
    norm_num [inputUpdate, clearedInput, cexPipeC1]
  have hAI : ghostAIUpdate ⟨.scatter, true, false, []⟩ cexPipeC1.world
      (fun _ => 0) = (cexWorldA, ⟨.scatter, false, false, []⟩) := by
    norm_num [ghostAIUpdate, cexPipeC1, cexWorldA, getGhostEntities,
      getEntitiesWithComponents, hasComponent, storeHas, storeGet,
      updateGhostsList, updateGhost, isGhostVulnerable, ghostVelocityStage,
      setVelocityComp, setGhostAIComp, addComponent, getOppositeDirection,
      GHOST_SPEED, GHOST_FRIGHTENED_SPEED, GlobalMode.toMode, storeSet]
    all_goals intro h; simp at h
  have hMov : movementUpdate cexWorldA = cexWorldA := by
    norm_num [movementUpdate, cexWorldA]
  have hEat : eatingUpdate cexWorldA =
      (cexWorldB, [.powerPelletEaten 2 ⟨1, 3, 30, 70⟩ 50 6000,
        .powerUpStarted 6000, .levelComplete 1 50]) := by
    norm_num [eatingUpdate, cexWorldA, cexWorldB, getPlayerEntity,
      getPlayerPosition, getAllPellets, getEntitiesWithComponents,
      hasComponent, storeHas, storeGet, eatenPellets, pelletColliding,
      eatProcess, addScore, setPowerUpTime, resetGhostEatenStreak,
      destroyEntity, storeDel, getRemainingPelletCount, setGameState,
      List.filter]
    all_goals decide
  have hPow : powerUpUpdate ⟨false, false⟩ cexWorldB =
      (cexWorldB, ⟨false, false⟩, []) := by
    norm_num [powerUpUpdate, cexWorldB]
    all_goals intro h; simp at h
  have hCol : collisionUpdate cexWorldB = (cexWorldB, []) := by
    norm_num [collisionUpdate, cexWorldB]
    all_goals intro h; simp at h
  have hst1 : cexPipeC1.inputSt = clearedInput := rfl
  have hst2 : cexPipeC1.ghostSt = ⟨.scatter, true, false, []⟩ := rfl
  have hst3 : cexPipeC1.powerSt = ⟨false, false⟩ := rfl
  refine ⟨rfl, rfl, rfl, rfl, rfl, rfl, ?_, ?_⟩ <;>
  · simp only [pipelineTick, hst1, hst2, hst3, hIn, hAI, hMov, hEat,
      hPow, hCol, applyGhostHandlers, applyControllerHandlers,
      List.append_nil, List.nil_append]
    rfl

/-! ### Pipeline lemmas towards claim C1 -/

/-- With no pending inputs, the input system is a complete no-op. -/
theorem inputUpdate_cleared (w : World) :
    inputUpdate clearedInput w = (clearedInput, w, []) := by
  simp [inputUpdate, clearedInput]

/-- With zero delta time the movement system returns the world unchanged. -/
theorem movementUpdate_dt0 (w : World) (h : w.deltaTime = 0) :
    movementUpdate w = w := by
  simp only [movementUpdate, h]
  split <;> simp

/-- A `ghost:eaten` event is not a `player:died` event. -/
theorem ghostEaten_not_playerDied (e : GameEvent) (h : isGhostEatenEv e = true) :
    isPlayerDiedEv e = false := by
  cases e <;> simp_all [isGhostEatenEv, isPlayerDiedEv]

/-- The controller's death handler ignores a batch without `player:died`. -/
theorem applyControllerHandlers_no_death (w : World) (evs : List GameEvent)
    (h : ∀ e ∈ evs, isPlayerDiedEv e = false) :
    applyControllerHandlers w evs = w := by
  induction evs with
  | nil => rfl
  | cons e rest ih =>
      cases e with
      | playerDied lr =>
          exact absurd (h (.playerDied lr) (by simp)) (by simp [isPlayerDiedEv])
      | _ =>
          simp only [applyControllerHandlers]
          exact ih (fun x hx => h x (by simp [hx]))

/-- A pellet at the player's own position is always within eating range. -/
theorem pelletColliding_self (p : Position) : pelletColliding p p = true := by
  simp only [pelletColliding]
  norm_num

/-- Two entities recorded at the same position collide. -/
theorem areColliding_same (m : EntityManager) (e1 e2 : Nat) (p : Position)
    (h1 : storeGet m.position e1 = some p)
    (h2 : storeGet m.position e2 = some p) :
    areColliding m e1 e2 = true := by
  simp only [areColliding, h1, h2]
  norm_num

/-- Presence of a component survives backwards through a delete. -/
theorem storeHas_del_mono {α : Type} (s : Store α) (i j : Nat)
    (h : storeHas (storeDel s i) j = true) : storeHas s j = true := by
  by_cases hj : j = i
  · subst hj
    rw [storeHas, storeGet_del_self] at h
    simp at h
  · rwa [storeHas, storeGet_del_other s i j hj] at h

/-- `List.all` only looks at members. -/
theorem list_all_congr {α : Type} {l : List α} {f g : α → Bool}
    (h : ∀ t ∈ l, f t = g t) : l.all f = l.all g := by
  induction l with
  | nil => rfl
  | cons a l ih =>
      simp only [List.all_cons, h a (by simp),
        ih (fun t ht => h t (by simp [ht]))]

/-- Query congruence: only the alive set and the listed stores matter. -/
theorem getEntities_congr (m1 m2 : EntityManager) (ts : List ComponentType)
    (ha : m1.alive = m2.alive)
    (hc : ∀ i t, t ∈ ts → hasComponent m1 i t = hasComponent m2 i t) :
    getEntitiesWithComponents m1 ts = getEntitiesWithComponents m2 ts := by
  simp only [getEntitiesWithComponents, ha]
  refine List.filter_congr ?_
  intro i _
  exact list_all_congr (fun t ht => hc i t ht)

/-- `filter` respects sublists with a pointwise-weaker predicate. -/
theorem filter_sublist_mono {α : Type} {l1 l2 : List α} {p q : α → Bool}
    (h : List.Sublist l1 l2) (hpq : ∀ a, p a = true → q a = true) :
    List.Sublist (l1.filter p) (l2.filter q) := by
  induction h with
  | slnil => simp
  | cons a _ ih =>
      simp only [List.filter_cons]
      split
      · exact ih.cons a
      · exact ih
  | cons₂ a _ ih =>
      simp only [List.filter_cons]
      by_cases hp : p a = true
      · rw [if_pos hp, if_pos (hpq a hp)]
        exact ih.cons₂ a
      · rw [if_neg hp]
        split
        · exact ih.cons a
        · exact ih

/-- A sublist of a duplicate-free list that contains the head starts with
the head. -/
theorem head?_eq_of_sublist {α : Type} {S l : List α} {a : α}
    (h : List.Sublist S l) (hh : l.head? = some a) (ha : a ∈ S) (hnd : l.Nodup) :
    S.head? = some a := by
  cases l with
  | nil => simp at hh
  | cons b t =>
      have hab : b = a := by simpa using hh
      subst hab
      have hbt : b ∉ t := (List.nodup_cons.mp hnd).1
      cases S with
      | nil => simp at ha
      | cons x r =>
          cases h with
          | cons₂ h2 => rfl
          | cons _ h2 => exact absurd (h2.subset ha) hbt

/-- The world-level fields untouched by the ghost-AI system: every store
except `velocity` and `ghostAI`, and every scalar it never writes. -/
def AIFrame (w2 w : World) : Prop :=
  w2.entities.alive = w.entities.alive ∧
  w2.entities.position = w.entities.position ∧
  w2.entities.vulnerable = w.entities.vulnerable ∧
  w2.entities.edible = w.entities.edible ∧
  w2.entities.powerUp = w.entities.powerUp ∧
  w2.entities.playerControlled = w.entities.playerControlled ∧
  w2.gameState = w.gameState ∧
  w2.lives = w.lives ∧
  w2.deltaTime = w.deltaTime ∧
  w2.powerUpTime = w.powerUpTime ∧
  w2.ghostEatenStreak = w.ghostEatenStreak

theorem AIFrame_refl (w : World) : AIFrame w w := by
  simp [AIFrame]

theorem AIFrame_trans {w1 w2 w3 : World} (h12 : AIFrame w1 w2)
    (h23 : AIFrame w2 w3) : AIFrame w1 w3 := by
  obtain ⟨a1, a2, a3, a4, a5, a6, a7, a8, a9, a10, a11⟩ := h12
  obtain ⟨b1, b2, b3, b4, b5, b6, b7, b8, b9, b10, b11⟩ := h23
  exact ⟨a1.trans b1, a2.trans b2, a3.trans b3, a4.trans b4, a5.trans b5,
    a6.trans b6, a7.trans b7, a8.trans b8, a9.trans b9, a10.trans b10,
    a11.trans b11⟩

theorem setGhostAIComp_frame (w : World) (gid : Nat) (c : GhostAIComp) :
    AIFrame (setGhostAIComp w gid c) w ∧
    (setGhostAIComp w gid c).entities.velocity = w.entities.velocity := by
  simp only [setGhostAIComp, addComponent, AIFrame]
  split <;> simp

theorem setGhostAIComp_ghostAI_other (w : World) (gid : Nat) (c : GhostAIComp)
    (j : Nat) (hj : j ≠ gid) :
    storeGet (setGhostAIComp w gid c).entities.ghostAI j =
      storeGet w.entities.ghostAI j := by
  simp only [setGhostAIComp, addComponent]
  split
  · exact storeGet_set_other _ _ _ _ hj
  · rfl

theorem setGhostAIComp_has (w : World) (gid : Nat) (c : GhostAIComp)
    (h : (storeGet w.entities.ghostAI gid).isSome = true) (j : Nat) :
    (storeGet (setGhostAIComp w gid c).entities.ghostAI j).isSome =
      (storeGet w.entities.ghostAI j).isSome := by
  by_cases hj : j = gid
  · subst hj
    simp only [setGhostAIComp, addComponent]
    split
    · simp [storeGet_set_self, h]
    · rfl
  · rw [setGhostAIComp_ghostAI_other w gid c j hj]

theorem ghostVelocityStage_aiframe (st : GhostAIState) (w1 : World) (gid : Nat)
    (pick : Nat) (nm : GhostMode) (vel : Velocity) (pos : Position) (iv : Bool) :
    AIFrame (ghostVelocityStage st w1 gid pick nm vel pos iv) w1 := by
  have h := ghostVelocityStage_frame st w1 gid pick nm vel pos iv
  exact ⟨h.2.1, h.2.2.1, h.2.2.2.1, h.2.2.2.2.1, h.2.2.2.2.2.1,
    h.2.2.2.2.2.2.1, h.2.2.2.2.2.2.2.1, h.2.2.2.2.2.2.2.2.1,
    h.2.2.2.2.2.2.2.2.2.1, h.2.2.2.2.2.2.2.2.2.2.1, h.2.2.2.2.2.2.2.2.2.2.2⟩

theorem ghostVelocityStage_velocity_other (st : GhostAIState) (w1 : World)
    (gid : Nat) (pick : Nat) (nm : GhostMode) (vel : Velocity) (pos : Position)
    (iv : Bool) (j : Nat) (hj : j ≠ gid) :
    storeGet (ghostVelocityStage st w1 gid pick nm vel pos iv).entities.velocity j =
      storeGet w1.entities.velocity j := by
  simp only [ghostVelocityStage, setVelocityComp, addComponent]
  repeat' split
  all_goals simp [storeGet_set_other _ _ _ _ hj]

theorem updateGhost_aiframe (st : GhostAIState) (w : World) (gid pick : Nat) :
    AIFrame (updateGhost st w gid pick).1 w := by
  simp only [updateGhost]
  split
  · repeat' split
    all_goals
      first
        | exact ghostVelocityStage_aiframe _ _ _ _ _ _ _ _
        | exact AIFrame_trans (ghostVelocityStage_aiframe _ _ _ _ _ _ _ _)
            (setGhostAIComp_frame _ _ _).1
  · exact AIFrame_refl w

theorem updateGhost_state (st : GhostAIState) (w : World) (gid pick : Nat)
    (h : st.eatenGhosts = []) : (updateGhost st w gid pick).2 = st := by
  simp only [updateGhost, h]
  split
  · repeat' split
    all_goals simp_all
  · rfl

theorem updateGhost_ghostAI_other (st : GhostAIState) (w : World)
    (gid pick j : Nat) (hj : j ≠ gid) :
    storeGet (updateGhost st w gid pick).1.entities.ghostAI j =
      storeGet w.entities.ghostAI j := by
  simp only [updateGhost]
  split
  · rw [(ghostVelocityStage_frame _ _ _ _ _ _ _ _).1]
    repeat' split
    all_goals first | rfl | exact setGhostAIComp_ghostAI_other w gid _ j hj
  · rfl

theorem updateGhost_velocity_other (st : GhostAIState) (w : World)
    (gid pick j : Nat) (hj : j ≠ gid) :
    storeGet (updateGhost st w gid pick).1.entities.velocity j =
      storeGet w.entities.velocity j := by
  simp only [updateGhost]
  split
  · rw [ghostVelocityStage_velocity_other _ _ _ _ _ _ _ _ j hj]
    repeat' split
    all_goals first | rfl | rw [(setGhostAIComp_frame w gid _).2]
  · rfl

theorem updateGhost_ghostAI_has (st : GhostAIState) (w : World)
    (gid pick j : Nat) :
    storeHas (updateGhost st w gid pick).1.entities.ghostAI j =
      storeHas w.entities.ghostAI j := by
  cases hai : storeGet w.entities.ghostAI gid with
  | none => simp [updateGhost, hai]
  | some ai =>
      cases hv : storeGet w.entities.velocity gid with
      | none => simp [updateGhost, hai, hv]
      | some vel =>
          cases hp : storeGet w.entities.position gid with
          | none => simp [updateGhost, hai, hv, hp]
          | some pos =>
              have hhas : (storeGet w.entities.ghostAI gid).isSome = true := by
                simp [hai]
              simp only [updateGhost, hai, hv, hp, storeHas]
              rw [(ghostVelocityStage_frame _ _ _ _ _ _ _ _).1]
              repeat' split
              all_goals first | rfl | exact setGhostAIComp_has w gid _ hhas j

theorem updateGhost_mode (st : GhostAIState) (w : World) (gid pick : Nat)
    (ai : GhostAIComp) (hpend : st.eatenGhosts = [])
    (hai : storeGet w.entities.ghostAI gid = some ai)
    (hvel : (storeGet w.entities.velocity gid).isSome = true)
    (hpos : (storeGet w.entities.position gid).isSome = true)
    (halive : w.entities.alive.contains gid = true) :
    ∃ m, getGhostMode (updateGhost st w gid pick).1 gid = some m ∧
      m ≠ .eaten := by
  obtain ⟨vel, hv⟩ := Option.isSome_iff_exists.mp hvel
  obtain ⟨pos, hp⟩ := Option.isSome_iff_exists.mp hpos
  simp only [updateGhost, hai, hv, hp, hpend]
  rw [getGhostMode_velStage]
  repeat' split
  all_goals
    first
      | (simp_all
         done)
      | (rename_i hcond
         exact ⟨ai.mode, by simp [getGhostMode, hai],
           by
             rw [← hcond]
             first
               | (simp
                  done)
               | cases st.currentGlobalMode <;> simp [GlobalMode.toMode]⟩)
      | (refine ⟨_, getGhostMode_setSelf _ _ _ halive, ?_⟩
         first
           | (simp
              done)
           | (cases st.currentGlobalMode <;> simp [GlobalMode.toMode]))

theorem updateGhost_mode_other (st : GhostAIState) (w : World)
    (gid pick j : Nat) (hj : j ≠ gid) :
    getGhostMode (updateGhost st w gid pick).1 j = getGhostMode w j := by
  simp only [getGhostMode, updateGhost_ghostAI_other st w gid pick j hj]

theorem updateGhostsList_state (st : GhostAIState) (w : World)
    (picks : Nat → Nat) (k : Nat) (l : List Nat) (h : st.eatenGhosts = []) :
    (updateGhostsList st w picks k l).2 = st := by
  induction l generalizing st w k with
  | nil => rfl
  | cons g rest ih =>
      simp only [updateGhostsList]
      rw [updateGhost_state st w g (picks k) h]
      exact ih st _ (k + 1) h

theorem updateGhostsList_aiframe (st : GhostAIState) (w : World)
    (picks : Nat → Nat) (k : Nat) (l : List Nat) :
    AIFrame (updateGhostsList st w picks k l).1 w := by
  induction l generalizing st w k with
  | nil => exact AIFrame_refl w
  | cons g rest ih =>
      simp only [updateGhostsList]
      exact AIFrame_trans (ih _ _ (k + 1)) (updateGhost_aiframe st w g (picks k))

theorem updateGhostsList_ghostAI_has (st : GhostAIState) (w : World)
    (picks : Nat → Nat) (k : Nat) (l : List Nat) (j : Nat) :
    storeHas (updateGhostsList st w picks k l).1.entities.ghostAI j =
      storeHas w.entities.ghostAI j := by
  induction l generalizing st w k with
  | nil => rfl
  | cons g rest ih =>
      simp only [updateGhostsList]
      rw [ih _ _ (k + 1), updateGhost_ghostAI_has st w g (picks k) j]

theorem updateGhostsList_mode_other (st : GhostAIState) (w : World)
    (picks : Nat → Nat) (k : Nat) (l : List Nat) (gid : Nat) (h : gid ∉ l) :
    getGhostMode (updateGhostsList st w picks k l).1 gid = getGhostMode w gid := by
  induction l generalizing st w k with
  | nil => rfl
  | cons g rest ih =>
      simp only [updateGhostsList]
      have hg : gid ≠ g := fun e => h (e ▸ List.mem_cons_self g rest)
      have hrest : gid ∉ rest := fun e => h (List.mem_cons_of_mem g e)
      rw [ih _ _ (k + 1) hrest, updateGhost_mode_other st w g (picks k) gid hg]

theorem updateGhostsList_mode (st : GhostAIState) (w : World)
    (picks : Nat → Nat) (k : Nat) (l : List Nat) (gid : Nat)
    (hpend : st.eatenGhosts = []) (hnd : l.Nodup) (hmem : gid ∈ l)
    (hai : (storeGet w.entities.ghostAI gid).isSome = true)
    (hvel : (storeGet w.entities.velocity gid).isSome = true)
    (hpos : (storeGet w.entities.position gid).isSome = true)
    (halive : w.entities.alive.contains gid = true) :
    ∃ m, getGhostMode (updateGhostsList st w picks k l).1 gid = some m ∧
      m ≠ .eaten := by
  induction l generalizing st w k with
  | nil => simp at hmem
  | cons g rest ih =>
      simp only [updateGhostsList]
      rcases List.mem_cons.mp hmem with hg | hg
      · subst hg
        obtain ⟨ai, hai'⟩ := Option.isSome_iff_exists.mp hai
        obtain ⟨m, hm, hne⟩ :=
          updateGhost_mode st w gid (picks k) ai hpend hai' hvel hpos halive
        refine ⟨m, ?_, hne⟩
        rw [updateGhostsList_mode_other _ _ picks (k + 1) rest gid
          (List.nodup_cons.mp hnd).1]
        exact hm
      · have hgng : gid ≠ g := by
          intro e
          subst e
          exact (List.nodup_cons.mp hnd).1 hg
        have hfr := updateGhost_aiframe st w g (picks k)
        refine ih _ _ (k + 1) ?_ (List.nodup_cons.mp hnd).2 hg ?_ ?_ ?_ ?_
        · rw [updateGhost_state st w g (picks k) hpend]
          exact hpend
        · rw [show (storeGet (updateGhost st w g (picks k)).1.entities.ghostAI
              gid).isSome = storeHas (updateGhost st w g
              (picks k)).1.entities.ghostAI gid from rfl,
            updateGhost_ghostAI_has st w g (picks k) gid]
          exact hai
        · rw [updateGhost_velocity_other st w g (picks k) gid hgng]
          exact hvel
        · rw [hfr.2.1]
          exact hpos
        · rw [hfr.1]
          exact halive

theorem ghostAIUpdate_aiframe (st : GhostAIState) (w : World)
    (picks : Nat → Nat) : AIFrame (ghostAIUpdate st w picks).1 w := by
  simp only [ghostAIUpdate]
  split
  · exact updateGhostsList_aiframe st w picks 0 (getGhostEntities w)
  · exact AIFrame_refl w

theorem ghostAIUpdate_ghostAI_has (st : GhostAIState) (w : World)
    (picks : Nat → Nat) (j : Nat) :
    storeHas (ghostAIUpdate st w picks).1.entities.ghostAI j =
      storeHas w.entities.ghostAI j := by
  simp only [ghostAIUpdate]
  split
  · exact updateGhostsList_ghostAI_has st w picks 0 (getGhostEntities w) j
  · rfl

theorem ghostAIUpdate_mode (st : GhostAIState) (w : World) (picks : Nat → Nat)
    (gid : Nat) (hplay : w.gameState = .playing) (hpend : st.eatenGhosts = [])
    (hnd : w.entities.alive.Nodup) (hgid : gid ∈ getGhostEntities w)
    (hvel : (storeGet w.entities.velocity gid).isSome = true)
    (hpos : (storeGet w.entities.position gid).isSome = true) :
    ∃ m, getGhostMode (ghostAIUpdate st w picks).1 gid = some m ∧
      m ≠ .eaten := by
  have hmem := List.mem_filter.mp hgid
  have halive : w.entities.alive.contains gid = true :=
    List.elem_iff.mpr hmem.1
  have hai : (storeGet w.entities.ghostAI gid).isSome = true := by
    have := hmem.2
    simp only [List.all_cons, List.all_nil, Bool.and_true,
      hasComponent, storeHas] at this
    exact this
  have hndg : (getGhostEntities w).Nodup := hnd.filter _
  simp only [ghostAIUpdate]
  rw [if_pos hplay]
  exact updateGhostsList_mode st w picks 0 (getGhostEntities w) gid hpend hndg
    hgid hai hvel hpos halive

theorem destroyEntity_alive_sublist (m : EntityManager) (i : Nat) :
    List.Sublist (destroyEntity m i).alive m.alive := by
  simp only [destroyEntity]
  split
  · exact List.filter_sublist _
  · exact List.Sublist.refl _

theorem destroyEntity_other (m : EntityManager) (i j : Nat) (hj : j ≠ i) :
    storeGet (destroyEntity m i).position j = storeGet m.position j ∧
    storeGet (destroyEntity m i).velocity j = storeGet m.velocity j ∧
    storeGet (destroyEntity m i).ghostAI j = storeGet m.ghostAI j ∧
    storeGet (destroyEntity m i).edible j = storeGet m.edible j ∧
    storeGet (destroyEntity m i).powerUp j = storeGet m.powerUp j ∧
    storeGet (destroyEntity m i).vulnerable j = storeGet m.vulnerable j ∧
    storeGet (destroyEntity m i).playerControlled j =
      storeGet m.playerControlled j ∧
    (destroyEntity m i).alive.contains j = m.alive.contains j := by
  simp only [destroyEntity]
  split
  · simp [storeGet_del_other _ _ _ hj, List.elem_iff, List.mem_filter, hj]
  · simp

theorem destroyEntity_sub (m : EntityManager) (i j : Nat) :
    (storeGet (destroyEntity m i).vulnerable j = storeGet m.vulnerable j ∨
      storeGet (destroyEntity m i).vulnerable j = none) ∧
    (storeGet (destroyEntity m i).powerUp j = storeGet m.powerUp j ∨
      storeGet (destroyEntity m i).powerUp j = none) := by
  by_cases hj : j = i
  · subst hj
    simp only [destroyEntity]
    split
    · simp [storeGet_del_self]
    · simp
  · have h := destroyEntity_other m i j hj
    exact ⟨Or.inl h.2.2.2.2.2.1, Or.inl h.2.2.2.2.1⟩

theorem destroyEntity_pc_mono (m : EntityManager) (i j : Nat)
    (h : storeHas (destroyEntity m i).playerControlled j = true) :
    storeHas m.playerControlled j = true := by
  by_cases hj : j = i
  · subst hj
    simp only [destroyEntity] at h
    split at h
    · exact storeHas_del_mono _ _ _ h
    · exact h
  · rwa [storeHas, (destroyEntity_other m i j hj).2.2.2.2.2.2.1] at h

theorem addScore_frame (w : World) (p : Int) :
    (addScore w p).entities = w.entities ∧
    (addScore w p).gameState = w.gameState ∧
    (addScore w p).lives = w.lives ∧
    (addScore w p).deltaTime = w.deltaTime ∧
    (addScore w p).powerUpTime = w.powerUpTime := by
  simp only [addScore]
  split <;> simp

/-- The shape of one step of the eating loop: score/power-up bookkeeping
on the scalars, destruction of the eaten pellet, and pellet events. -/
theorem eatProcess_cons (w : World) (pid : Nat) (rest : List Nat) :
    ∃ w3 evs1, eatProcess w (pid :: rest) =
      ((eatProcess w3 rest).1, evs1 ++ (eatProcess w3 rest).2) ∧
      w3.entities = destroyEntity w.entities pid ∧
      w3.gameState = w.gameState ∧ w3.lives = w.lives ∧
      w3.deltaTime = w.deltaTime ∧
      (∀ e ∈ evs1, isPlayerDiedEv e = false) ∧
      (storeGet w.entities.powerUp pid = none →
        w3.powerUpTime = w.powerUpTime) ∧
      (∀ pu, storeGet w.entities.powerUp pid = some pu →
        w3.powerUpTime = pu.duration) := by
  have hfr := addScore_frame w
    (((storeGet w.entities.edible pid).map (·.points)).getD 10)
  cases hq : storeGet w.entities.powerUp pid with
  | none =>
      refine ⟨{ addScore w (((storeGet w.entities.edible pid).map
          (·.points)).getD 10) with
          entities := destroyEntity (addScore w (((storeGet
            w.entities.edible pid).map (·.points)).getD 10)).entities pid },
        [.pelletEaten pid ((storeGet w.entities.position pid).getD
          ⟨0, 0, 0, 0⟩) (((storeGet w.entities.edible pid).map
          (·.points)).getD 10)], ?_, ?_, ?_, ?_, ?_, ?_, ?_, ?_⟩
      · simp only [eatProcess, hq]
      · rw [hfr.1]
      · exact hfr.2.1
      · exact hfr.2.2.1
      · exact hfr.2.2.2.1
      · intro e he
        simp only [List.mem_singleton] at he
        subst he
        rfl
      · intro _
        exact hfr.2.2.2.2
      · intro pu hpu
        cases hpu
  | some pu =>
      refine ⟨{ resetGhostEatenStreak (setPowerUpTime (addScore w
          (((storeGet w.entities.edible pid).map (·.points)).getD 10))
          pu.duration) with
          entities := destroyEntity (resetGhostEatenStreak (setPowerUpTime
            (addScore w (((storeGet w.entities.edible pid).map
            (·.points)).getD 10)) pu.duration)).entities pid },
        [.powerPelletEaten pid ((storeGet w.entities.position pid).getD
          ⟨0, 0, 0, 0⟩) (((storeGet w.entities.edible pid).map
          (·.points)).getD 10) pu.duration, .powerUpStarted pu.duration],
        ?_, ?_, ?_, ?_, ?_, ?_, ?_, ?_⟩
      · simp only [eatProcess, hq]
      · simp only [resetGhostEatenStreak, setPowerUpTime]
        rw [hfr.1]
      · exact hfr.2.1
      · exact hfr.2.2.1
      · exact hfr.2.2.2.1
      · intro e he
        simp only [List.mem_cons, List.not_mem_nil, or_false] at he
        rcases he with he | he <;> subst he <;> rfl
      · intro hnone
        cases hnone
      · intro pu2 hpu2
        cases hpu2
        rfl

/-- Scalar and alive-set effects of the whole eating loop. -/
theorem eatProcess_frame (w : World) (l : List Nat) :
    (eatProcess w l).1.gameState = w.gameState ∧
    (eatProcess w l).1.lives = w.lives ∧
    (eatProcess w l).1.deltaTime = w.deltaTime ∧
    List.Sublist (eatProcess w l).1.entities.alive w.entities.alive := by
  induction l generalizing w with
  | nil => exact ⟨rfl, rfl, rfl, List.Sublist.refl _⟩
  | cons pid rest ih =>
      obtain ⟨w3, evs1, heq, hent, hgs, hlv, hdt, hev, hp0, hps⟩ :=
        eatProcess_cons w pid rest
      rw [heq]
      obtain ⟨i1, i2, i3, i4⟩ := ih w3
      refine ⟨i1.trans hgs, i2.trans hlv, i3.trans hdt, i4.trans ?_⟩
      rw [hent]
      exact destroyEntity_alive_sublist w.entities pid

/-- Entities not in the eaten list keep all their components and their
alive status. -/
theorem eatProcess_other (w : World) (l : List Nat) (j : Nat) (hj : j ∉ l) :
    storeGet (eatProcess w l).1.entities.position j =
      storeGet w.entities.position j ∧
    storeGet (eatProcess w l).1.entities.velocity j =
      storeGet w.entities.velocity j ∧
    storeGet (eatProcess w l).1.entities.ghostAI j =
      storeGet w.entities.ghostAI j ∧
    storeGet (eatProcess w l).1.entities.edible j =
      storeGet w.entities.edible j ∧
    storeGet (eatProcess w l).1.entities.powerUp j =
      storeGet w.entities.powerUp j ∧
    storeGet (eatProcess w l).1.entities.vulnerable j =
      storeGet w.entities.vulnerable j ∧
    storeGet (eatProcess w l).1.entities.playerControlled j =
      storeGet w.entities.playerControlled j ∧
    (eatProcess w l).1.entities.alive.contains j =
      w.entities.alive.contains j := by
  induction l generalizing w with
  | nil => exact ⟨rfl, rfl, rfl, rfl, rfl, rfl, rfl, rfl⟩
  | cons pid rest ih =>
      have hjp : j ≠ pid := fun e => hj (e ▸ List.mem_cons_self pid rest)
      have hjr : j ∉ rest := fun e => hj (List.mem_cons_of_mem pid e)
      obtain ⟨w3, evs1, heq, hent, _, _, _, _, _, _⟩ :=
        eatProcess_cons w pid rest
      rw [heq]
      obtain ⟨i1, i2, i3, i4, i5, i6, i7, i8⟩ := ih w3 hjr
      have hd := destroyEntity_other w.entities pid j hjp
      rw [hent] at i1 i2 i3 i4 i5 i6 i7 i8
      exact ⟨i1.trans hd.1, i2.trans hd.2.1, i3.trans hd.2.2.1,
        i4.trans hd.2.2.2.1, i5.trans hd.2.2.2.2.1,
        i6.trans hd.2.2.2.2.2.1, i7.trans hd.2.2.2.2.2.2.1,
        i8.trans hd.2.2.2.2.2.2.2⟩

/-- Vulnerable and power-up entries only disappear during eating, they are
never rewritten. -/
theorem eatProcess_sub (w : World) (l : List Nat) (j : Nat) :
    (storeGet (eatProcess w l).1.entities.vulnerable j =
        storeGet w.entities.vulnerable j ∨
      storeGet (eatProcess w l).1.entities.vulnerable j = none) ∧
    (storeGet (eatProcess w l).1.entities.powerUp j =
        storeGet w.entities.powerUp j ∨
      storeGet (eatProcess w l).1.entities.powerUp j = none) := by
  induction l generalizing w with
  | nil => exact ⟨Or.inl rfl, Or.inl rfl⟩
  | cons pid rest ih =>
      obtain ⟨w3, evs1, heq, hent, _, _, _, _, _, _⟩ :=
        eatProcess_cons w pid rest
      rw [heq]
      obtain ⟨i1, i2⟩ := ih w3
      have hd := destroyEntity_sub w.entities pid j
      rw [hent] at i1 i2
      constructor
      · rcases i1 with i1 | i1
        · rcases hd.1 with hd1 | hd1
          · exact Or.inl (i1.trans hd1)
          · exact Or.inr (i1.trans hd1)
        · exact Or.inr i1
      · rcases i2 with i2 | i2
        · rcases hd.2 with hd2 | hd2
          · exact Or.inl (i2.trans hd2)
          · exact Or.inr (i2.trans hd2)
        · exact Or.inr i2

/-- The eating loop dispatches only pellet events, never `player:died`. -/
theorem eatProcess_events (w : World) (l : List Nat) :
    ∀ e ∈ (eatProcess w l).2, isPlayerDiedEv e = false := by
  induction l generalizing w with
  | nil => intro e he; simp [eatProcess] at he
  | cons pid rest ih =>
      obtain ⟨w3, evs1, heq, _, _, _, _, hev, _, _⟩ :=
        eatProcess_cons w pid rest
      rw [heq]
      intro e he
      rcases List.mem_append.mp he with he | he
      · exact hev e he
      · exact ih w3 e he

/-- Player-control markers are never created during eating. -/
theorem eatProcess_pc_mono (w : World) (l : List Nat) (j : Nat)
    (h : storeHas (eatProcess w l).1.entities.playerControlled j = true) :
    storeHas w.entities.playerControlled j = true := by
  induction l generalizing w with
  | nil => exact h
  | cons pid rest ih =>
      obtain ⟨w3, evs1, heq, hent, _, _, _, _, _, _⟩ :=
        eatProcess_cons w pid rest
      rw [heq] at h
      have h3 := ih w3 h
      rw [hent] at h3
      exact destroyEntity_pc_mono w.entities pid j h3

/-- If a power pellet is in the eaten list (and every stored power-up
duration is positive), the loop leaves a positive power-up timer. -/
theorem eatProcess_powerUpTime_pos (w : World) (l : List Nat)
    (hnd : l.Nodup)
    (hinv : ∀ j q, storeGet w.entities.powerUp j = some q → 0 < q.duration)
    (hsome : 0 < w.powerUpTime ∨
      ∃ k ∈ l, (storeGet w.entities.powerUp k).isSome = true) :
    0 < (eatProcess w l).1.powerUpTime := by
  induction l generalizing w with
  | nil =>
      rcases hsome with h | ⟨k, hk, _⟩
      · exact h
      · simp at hk
  | cons pid rest ih =>
      obtain ⟨w3, evs1, heq, hent, _, _, _, _, hp0, hps⟩ :=
        eatProcess_cons w pid rest
      rw [heq]
      have hinv3 : ∀ j q, storeGet w3.entities.powerUp j = some q →
          0 < q.duration := by
        intro j q hq
        rw [hent] at hq
        rcases (destroyEntity_sub w.entities pid j).2 with hd | hd
        · exact hinv j q (hd ▸ hq)
        · rw [hd] at hq
          cases hq
      refine ih w3 hnd.of_cons hinv3 ?_
      cases hq : storeGet w.entities.powerUp pid with
      | some pu =>
          refine Or.inl ?_
          rw [hps pu hq]
          exact hinv pid pu hq
      | none =>
          rcases hsome with h | ⟨k, hk, hks⟩
          · exact Or.inl (by rwa [hp0 hq])
          · rcases List.mem_cons.mp hk with hk1 | hk1
            · subst hk1
              rw [hq] at hks
              cases hks
            · have hkp : k ≠ pid := by
                intro e
                subst e
                exact (List.nodup_cons.mp hnd).1 hk1
              refine Or.inr ⟨k, hk1, ?_⟩
              rw [hent]
              rw [(destroyEntity_other w.entities pid k hkp).2.2.2.2.1]
              exact hks

/-- The player query still returns the same entity after eating, as long
as the player itself was not destroyed. -/
theorem eatProcess_playerEntity (w : World) (l : List Nat) (pid : Nat)
    (hnd : w.entities.alive.Nodup)
    (hpid : getPlayerEntity w = some pid) (hnot : pid ∉ l) :
    getPlayerEntity (eatProcess w l).1 = some pid := by
  have hsub := (eatProcess_frame w l).2.2.2
  have hS : List.Sublist
      (getEntitiesWithComponents (eatProcess w l).1.entities
        [.playerControlled])
      (getEntitiesWithComponents w.entities [.playerControlled]) := by
    simp only [getEntitiesWithComponents]
    refine filter_sublist_mono hsub ?_
    intro a ha
    simp only [List.all_cons, List.all_nil, Bool.and_true,
      hasComponent] at ha ⊢
    exact eatProcess_pc_mono w l a ha
  have hmemw : pid ∈ getEntitiesWithComponents w.entities
      [.playerControlled] := by
    have := hpid
    simp only [getPlayerEntity] at this
    cases hl : getEntitiesWithComponents w.entities [.playerControlled] with
    | nil => rw [hl] at this; cases this
    | cons a t =>
        rw [hl] at this
        simp only [List.head?] at this
        cases this
        exact List.mem_cons_self _ _
  have hcond : List.all [ComponentType.playerControlled]
      (fun t => hasComponent w.entities pid t) = true :=
    (List.mem_filter.mp hmemw).2
  have hmemE : pid ∈ getEntitiesWithComponents (eatProcess w l).1.entities
      [.playerControlled] := by
    refine List.mem_filter.mpr ⟨?_, ?_⟩
    · have hc := (eatProcess_other w l pid hnot).2.2.2.2.2.2.2
      have hw : pid ∈ w.entities.alive := (List.mem_filter.mp hmemw).1
      have : (eatProcess w l).1.entities.alive.contains pid = true := by
        rw [hc]
        exact List.elem_iff.mpr hw
      exact List.elem_iff.mp this
    · simp only [List.all_cons, List.all_nil, Bool.and_true,
        hasComponent, storeHas] at hcond ⊢
      rw [(eatProcess_other w l pid hnot).2.2.2.2.2.2.1]
      exact hcond
  have hndf : (getEntitiesWithComponents w.entities
      [.playerControlled]).Nodup := hnd.filter _
  simp only [getPlayerEntity] at hpid ⊢
  exact head?_eq_of_sublist hS hpid hmemE hndf

theorem storeGet_set_eq_or {α : Type} (s : Store α) (i j : Nat) (v u : α)
    (h : storeGet (storeSet s i v) j = some u) :
    u = v ∨ storeGet s j = some u := by
  by_cases hj : j = i
  · subst hj
    rw [storeGet_set_self] at h
    exact Or.inl (Option.some.inj h).symm
  · rw [storeGet_set_other _ _ _ _ hj] at h
    exact Or.inr h

theorem addComponent_vuln_frame (m : EntityManager) (g : Nat) (c : Vulnerable) :
    (addComponent m g (.vulnerable c)).alive = m.alive ∧
    (addComponent m g (.vulnerable c)).position = m.position ∧
    (addComponent m g (.vulnerable c)).ghostAI = m.ghostAI ∧
    (addComponent m g (.vulnerable c)).edible = m.edible ∧
    (addComponent m g (.vulnerable c)).powerUp = m.powerUp ∧
    (addComponent m g (.vulnerable c)).playerControlled =
      m.playerControlled := by
  simp only [addComponent]
  split <;> simp

theorem removeComponent_vuln_frame (m : EntityManager) (g : Nat) :
    (removeComponent m g .vulnerable).alive = m.alive ∧
    (removeComponent m g .vulnerable).position = m.position ∧
    (removeComponent m g .vulnerable).ghostAI = m.ghostAI ∧
    (removeComponent m g .vulnerable).edible = m.edible ∧
    (removeComponent m g .vulnerable).powerUp = m.powerUp ∧
    (removeComponent m g .vulnerable).playerControlled =
      m.playerControlled := by
  simp [removeComponent]

theorem grantVulnerability_frame (m : EntityManager) (t : ℚ) (l : List Nat) :
    (grantVulnerability m t l).alive = m.alive ∧
    (grantVulnerability m t l).position = m.position ∧
    (grantVulnerability m t l).ghostAI = m.ghostAI ∧
    (grantVulnerability m t l).edible = m.edible ∧
    (grantVulnerability m t l).powerUp = m.powerUp ∧
    (grantVulnerability m t l).playerControlled = m.playerControlled := by
  induction l generalizing m with
  | nil => exact ⟨rfl, rfl, rfl, rfl, rfl, rfl⟩
  | cons g rest ih =>
      simp only [grantVulnerability]
      split
      · exact ih m
      · obtain ⟨i1, i2, i3, i4, i5, i6⟩ := ih (addComponent m g
          (.vulnerable ⟨t, false⟩))
        have ha := addComponent_vuln_frame m g ⟨t, false⟩
        exact ⟨i1.trans ha.1, i2.trans ha.2.1, i3.trans ha.2.2.1,
          i4.trans ha.2.2.2.1, i5.trans ha.2.2.2.2.1,
          i6.trans ha.2.2.2.2.2⟩

theorem grantVulnerability_inv (m : EntityManager) (t : ℚ) (l : List Nat)
    (ht : 0 < t)
    (hinv : ∀ j v, storeGet m.vulnerable j = some v → 0 < v.remainingTime) :
    ∀ j v, storeGet (grantVulnerability m t l).vulnerable j = some v →
      0 < v.remainingTime := by
  induction l generalizing m with
  | nil => exact hinv
  | cons g rest ih =>
      simp only [grantVulnerability]
      split
      · exact ih m hinv
      · refine ih _ ?_
        intro j v hj
        simp only [addComponent] at hj
        split at hj
        · rcases storeGet_set_eq_or _ _ _ _ _ hj with h | h
          · subst h
            exact ht
          · exact hinv j v h
        · exact hinv j v hj

theorem grantVulnerability_pos_mono (m : EntityManager) (t : ℚ)
    (l : List Nat) (ht : 0 < t) (g : Nat)
    (h : ∃ v, storeGet m.vulnerable g = some v ∧ 0 < v.remainingTime) :
    ∃ v, storeGet (grantVulnerability m t l).vulnerable g = some v ∧
      0 < v.remainingTime := by
  induction l generalizing m with
  | nil => exact h
  | cons g2 rest ih =>
      simp only [grantVulnerability]
      split
      · exact ih m h
      · refine ih _ ?_
        obtain ⟨v, hv, hvp⟩ := h
        simp only [addComponent]
        split
        · by_cases hg : g = g2
          · subst hg
            exact ⟨⟨t, false⟩, by simp [storeGet_set_self], ht⟩
          · exact ⟨v, by rw [storeGet_set_other _ _ _ _ hg]; exact hv, hvp⟩
        · exact ⟨v, hv, hvp⟩

theorem grantVulnerability_pos (m : EntityManager) (t : ℚ) (l : List Nat)
    (ht : 0 < t)
    (hinv : ∀ j v, storeGet m.vulnerable j = some v → 0 < v.remainingTime)
    (g : Nat) (hg : g ∈ l) (halive : m.alive.contains g = true) :
    ∃ v, storeGet (grantVulnerability m t l).vulnerable g = some v ∧
      0 < v.remainingTime := by
  induction l generalizing m with
  | nil => simp at hg
  | cons g2 rest ih =>
      rcases List.mem_cons.mp hg with hgg | hgg
      · subst hgg
        simp only [grantVulnerability]
        split
        · rename_i hhas
          simp only [hasComponent, storeHas] at hhas
          obtain ⟨v, hv⟩ := Option.isSome_iff_exists.mp hhas
          exact grantVulnerability_pos_mono m t rest ht g
            ⟨v, hv, hinv g v hv⟩
        · refine grantVulnerability_pos_mono _ t rest ht g ?_
          simp only [addComponent]
          rw [if_pos (List.elem_iff.mpr (List.elem_iff.mp halive))]
          exact ⟨⟨t, false⟩, by simp [storeGet_set_self], ht⟩
      · simp only [grantVulnerability]
        split
        · exact ih m hinv hgg halive
        · refine ih _ ?_ hgg ?_
          · intro j v hj
            simp only [addComponent] at hj
            split at hj
            · rcases storeGet_set_eq_or _ _ _ _ _ hj with h | h
              · subst h
                exact ht
              · exact hinv j v h
            · exact hinv j v hj
          · rw [(addComponent_vuln_frame m g2 ⟨t, false⟩).1]
            exact halive

theorem updateVulnTimers_frame (m : EntityManager) (t : ℚ) (fl : Bool)
    (l : List Nat) :
    (updateVulnTimers m t fl l).alive = m.alive ∧
    (updateVulnTimers m t fl l).position = m.position ∧
    (updateVulnTimers m t fl l).ghostAI = m.ghostAI ∧
    (updateVulnTimers m t fl l).edible = m.edible ∧
    (updateVulnTimers m t fl l).powerUp = m.powerUp ∧
    (updateVulnTimers m t fl l).playerControlled = m.playerControlled := by
  induction l generalizing m with
  | nil => exact ⟨rfl, rfl, rfl, rfl, rfl, rfl⟩
  | cons g rest ih =>
      simp only [updateVulnTimers]
      split
      · obtain ⟨i1, i2, i3, i4, i5, i6⟩ := ih (addComponent m g
          (.vulnerable ⟨t, fl⟩))
        have ha := addComponent_vuln_frame m g ⟨t, fl⟩
        exact ⟨i1.trans ha.1, i2.trans ha.2.1, i3.trans ha.2.2.1,
          i4.trans ha.2.2.2.1, i5.trans ha.2.2.2.2.1,
          i6.trans ha.2.2.2.2.2⟩
      · exact ih m

theorem updateVulnTimers_pos_mono (m : EntityManager) (t : ℚ) (fl : Bool)
    (l : List Nat) (ht : 0 < t) (g : Nat)
    (h : ∃ v, storeGet m.vulnerable g = some v ∧ 0 < v.remainingTime) :
    ∃ v, storeGet (updateVulnTimers m t fl l).vulnerable g = some v ∧
      0 < v.remainingTime := by
  induction l generalizing m with
  | nil => exact h
  | cons g2 rest ih =>
      simp only [updateVulnTimers]
      split
      · refine ih _ ?_
        obtain ⟨v, hv, hvp⟩ := h
        simp only [addComponent]
        split
        · by_cases hg : g = g2
          · subst hg
            exact ⟨⟨t, fl⟩, by simp [storeGet_set_self], ht⟩
          · exact ⟨v, by rw [storeGet_set_other _ _ _ _ hg]; exact hv, hvp⟩
        · exact ⟨v, hv, hvp⟩
      · exact ih m h

theorem updateVulnTimers_pos (m : EntityManager) (t : ℚ) (fl : Bool)
    (l : List Nat) (ht : 0 < t) (g : Nat) (hg : g ∈ l)
    (halive : m.alive.contains g = true)
    (hhas : ∃ v, storeGet m.vulnerable g = some v ∧ 0 < v.remainingTime) :
    ∃ v, storeGet (updateVulnTimers m t fl l).vulnerable g = some v ∧
      0 < v.remainingTime :=
  updateVulnTimers_pos_mono m t fl l ht g hhas

theorem getGhostEntities_congr (w1 w2 : World)
    (ha : w1.entities.alive = w2.entities.alive)
    (hg : w1.entities.ghostAI = w2.entities.ghostAI) :
    getGhostEntities w1 = getGhostEntities w2 := by
  refine getEntities_congr _ _ _ ha ?_
  intro i t ht
  simp only [List.mem_singleton] at ht
  subst ht
  simp [hasComponent, storeHas, hg]

theorem getAllPellets_congr (w1 w2 : World)
    (ha : w1.entities.alive = w2.entities.alive)
    (he : w1.entities.edible = w2.entities.edible)
    (hp : w1.entities.position = w2.entities.position) :
    getAllPellets w1 = getAllPellets w2 := by
  refine getEntities_congr _ _ _ ha ?_
  intro i t ht
  simp only [List.mem_cons, List.not_mem_nil, or_false,
    List.mem_singleton] at ht
  rcases ht with ht | ht <;> subst ht <;>
    simp [hasComponent, storeHas, he, hp]

theorem getPlayerEntity_congr (w1 w2 : World)
    (ha : w1.entities.alive = w2.entities.alive)
    (hp : w1.entities.playerControlled = w2.entities.playerControlled) :
    getPlayerEntity w1 = getPlayerEntity w2 := by
  simp only [getPlayerEntity]
  rw [getEntities_congr _ _ _ ha ?_]
  intro i t ht
  simp only [List.mem_singleton] at ht
  subst ht
  simp [hasComponent, storeHas, hp]

/-- One power-up tick at the activation edge (timer just set, `wasActive`
still false): every ghost ends up vulnerable with positive remaining time,
the stores the collision system reads are untouched, and no `player:died`
is dispatched. -/
theorem powerUpUpdate_grant (st : PowerUpState) (w : World)
    (hwas : st.wasActive = false) (hplay : w.gameState = .playing)
    (hdt : w.deltaTime = 0) (hpow : 0 < w.powerUpTime)
    (hinv : ∀ j v, storeGet w.entities.vulnerable j = some v →
      0 < v.remainingTime) :
    (powerUpUpdate st w).1.gameState = .playing ∧
    (powerUpUpdate st w).1.lives = w.lives ∧
    (powerUpUpdate st w).1.entities.alive = w.entities.alive ∧
    (powerUpUpdate st w).1.entities.position = w.entities.position ∧
    (powerUpUpdate st w).1.entities.ghostAI = w.entities.ghostAI ∧
    (powerUpUpdate st w).1.entities.playerControlled =
      w.entities.playerControlled ∧
    (∀ g ∈ getGhostEntities w,
      isGhostVulnerable (powerUpUpdate st w).1 g = true) ∧
    (∀ e ∈ (powerUpUpdate st w).2.2, isPlayerDiedEv e = false) := by
  have hstart : 0 < w.powerUpTime ∧ st.wasActive = false := ⟨hpow, hwas⟩
  have hT2 : max 0 (w.powerUpTime - w.deltaTime) = w.powerUpTime := by
    rw [hdt, sub_zero]
    exact max_eq_right hpow.le
  have hnz : ¬ w.powerUpTime = 0 := ne_of_gt hpow
  simp only [powerUpUpdate, decreasePowerUpTime, if_pos hplay,
    if_pos hstart, if_pos hpow, hT2, if_neg hnz]
  refine ⟨?_, ?_, ?_, ?_, ?_, ?_, ?_, ?_⟩
  · first
      | exact hplay
      | trivial
  · first
      | rfl
      | trivial
  · first
      | rw [(updateVulnTimers_frame _ _ _ _).1,
          (grantVulnerability_frame _ _ _).1]
      | trivial
  · first
      | rw [(updateVulnTimers_frame _ _ _ _).2.1,
          (grantVulnerability_frame _ _ _).2.1]
      | trivial
  · first
      | rw [(updateVulnTimers_frame _ _ _ _).2.2.1,
          (grantVulnerability_frame _ _ _).2.2.1]
      | trivial
  · first
      | rw [(updateVulnTimers_frame _ _ _ _).2.2.2.2.2,
          (grantVulnerability_frame _ _ _).2.2.2.2.2]
      | trivial
  · intro g hgm
    have halive : w.entities.alive.contains g = true :=
      List.elem_iff.mpr (List.mem_filter.mp hgm).1
    have hpos1 := grantVulnerability_pos w.entities w.powerUpTime
      (getGhostEntities w) hpow hinv g hgm halive
    obtain ⟨v, hv, hvp⟩ := updateVulnTimers_pos_mono
      (grantVulnerability w.entities w.powerUpTime (getGhostEntities w))
      w.powerUpTime
      (decide (w.powerUpTime ≤ POWER_WARNING_TIME))
      (getGhostEntities { w with entities := (grantVulnerability w.entities
        w.powerUpTime (getGhostEntities w)) })
      hpow g hpos1
    simp only [isGhostVulnerable, hv]
    simp [hvp]
  · intro e he
    simp only [List.append_nil] at he
    split at he
    · simp only [List.mem_singleton] at he
      subst he
      rfl
    · simp at he

/-- C1 (amended): with the player, a non-vulnerable ghost and a power
pellet co-located in a playing world, one full pipeline tick keeps the
lives count, dispatches a `ghost:eaten` event for that ghost, and
dispatches no `player:died` event — provided the consumed power pellet is
not the last remaining pellet (here: some pellet survives out of eating
range).  Stated at the activation edge (`powerUpTime = 0`-independent:
only positive stored durations, a cleared input state, no pending-eaten
ghosts, `wasActive = false`) and for a zero-delta-time tick. -/
theorem pipeline_eating_before_collision
    (w : World) (gst : GhostAIState) (pst : PowerUpState)
    (picks : Nat → Nat) (pid gid ppid spid : Nat) (p sp : Position)
    (ed sed : Edible)
    (hplay : w.gameState = .playing)
    (hdt : w.deltaTime = 0)
    (hnd : w.entities.alive.Nodup)
    (hpend : gst.eatenGhosts = [])
    (hwas : pst.wasActive = false)
    (hpid : getPlayerEntity w = some pid)
    (hppos : storeGet w.entities.position pid = some p)
    (hped : storeGet w.entities.edible pid = none)
    (hgA : gid ∈ getGhostEntities w)
    (hgvel : (storeGet w.entities.velocity gid).isSome = true)
    (hgpos : storeGet w.entities.position gid = some p)
    (hged : storeGet w.entities.edible gid = none)
    (hgvuln : isGhostVulnerable w gid = false)
    (hppalive : ppid ∈ w.entities.alive)
    (hpped : storeGet w.entities.edible ppid = some ed)
    (hpppos : storeGet w.entities.position ppid = some p)
    (hpppu : (storeGet w.entities.powerUp ppid).isSome = true)
    (hdur : ∀ j q, storeGet w.entities.powerUp j = some q → 0 < q.duration)
    (hvulpos : ∀ j v, storeGet w.entities.vulnerable j = some v →
      0 < v.remainingTime)
    (hsp : spid ∈ w.entities.alive)
    (hsped : storeGet w.entities.edible spid = some sed)
    (hsppos : storeGet w.entities.position spid = some sp)
    (hspfar : pelletColliding p sp = false) :
    (pipelineTick ⟨w, clearedInput, gst, pst⟩ picks).1.world.lives =
      w.lives ∧
    (∃ e ∈ (pipelineTick ⟨w, clearedInput, gst, pst⟩ picks).2,
      isGhostEatenEv e = true ∧ evGhostId e = gid) ∧
    (∀ e ∈ (pipelineTick ⟨w, clearedInput, gst, pst⟩ picks).2,
      isPlayerDiedEv e = false) := by
  -- ghost-AI stage
  obtain ⟨hAalive, hApos, hAvuln, hAed, hApu, hApc, hAgs, hAlv, hAdt,
    hApow, hAst⟩ := ghostAIUpdate_aiframe gst w picks
  obtain ⟨gm, hgm, hgmne⟩ := ghostAIUpdate_mode gst w picks gid hplay hpend
    hnd hgA hgvel (by simp [hgpos])
  set wA := (ghostAIUpdate gst w picks).1 with hwAdef
  -- movement stage is the identity at zero delta time
  have hMov : movementUpdate wA = wA :=
    movementUpdate_dt0 wA (hAdt.trans hdt)
  -- eating stage
  have hplayA : wA.gameState = .playing := hAgs.trans hplay
  have hpidA : getPlayerEntity wA = some pid :=
    (getPlayerEntity_congr wA w hAalive hApc).trans hpid
  have hpposA : getPlayerPosition wA = some p := by
    simp only [getPlayerPosition, hpidA]
    rw [hApos]
    exact hppos
  have hPelletsA : getAllPellets wA = getAllPellets w :=
    getAllPellets_congr wA w hAalive hAed hApos
  set eaten := eatenPellets wA p with heatendef
  have hppid_in : ppid ∈ eaten := by
    rw [heatendef]
    refine List.mem_filter.mpr ⟨?_, ?_⟩
    · rw [hPelletsA]
      refine List.mem_filter.mpr ⟨hppalive, ?_⟩
      simp [hasComponent, storeHas, hpped, hpppos]
    · rw [hApos, hpppos]
      simp [pelletColliding_self p]
  have hgid_out : gid ∉ eaten := by
    intro hmem
    rw [heatendef] at hmem
    have h1 := (List.mem_filter.mp hmem).1
    rw [hPelletsA] at h1
    have h2 := (List.mem_filter.mp h1).2
    simp [hasComponent, storeHas, hged] at h2
  have hpid_out : pid ∉ eaten := by
    intro hmem
    rw [heatendef] at hmem
    have h1 := (List.mem_filter.mp hmem).1
    rw [hPelletsA] at h1
    have h2 := (List.mem_filter.mp h1).2
    simp [hasComponent, storeHas, hped] at h2
  have hspid_out : spid ∉ eaten := by
    intro hmem
    rw [heatendef] at hmem
    have h2 := (List.mem_filter.mp hmem).2
    simp only [hApos, hsppos, hspfar] at h2
    cases h2
  have hnd_eaten : eaten.Nodup := by
    rw [heatendef]
    refine List.Nodup.filter _ ?_
    simp only [getAllPellets, getEntitiesWithComponents]
    refine List.Nodup.filter _ ?_
    rw [hAalive]
    exact hnd
  set wE := (eatProcess wA eaten).1 with hwEdef
  obtain ⟨hEgs, hElv, hEdt, hEsub⟩ := eatProcess_frame wA eaten
  have hEpow : 0 < wE.powerUpTime := by
    refine eatProcess_powerUpTime_pos wA eaten hnd_eaten ?_ ?_
    · intro j q hq
      rw [hApu] at hq
      exact hdur j q hq
    · refine Or.inr ⟨ppid, hppid_in, ?_⟩
      rw [hApu]
      exact hpppu
  have hndA : wA.entities.alive.Nodup := by
    rw [hAalive]
    exact hnd
  have hEpe : getPlayerEntity wE = some pid :=
    eatProcess_playerEntity wA eaten pid hndA hpidA hpid_out
  -- the surviving pellet blocks the level-complete branch
  have hspE : spid ∈ getAllPellets wE := by
    have ho := eatProcess_other wA eaten spid hspid_out
    refine List.mem_filter.mpr ⟨?_, ?_⟩
    · have hc : wE.entities.alive.contains spid = true := by
        rw [ho.2.2.2.2.2.2.2, hAalive]
        exact List.elem_iff.mpr hsp
      exact List.elem_iff.mp hc
    · have he1 : storeGet wE.entities.edible spid = some sed := by
        rw [ho.2.2.2.1, hAed]
        exact hsped
      have he2 : storeGet wE.entities.position spid = some sp := by
        rw [ho.1, hApos]
        exact hsppos
      simp [hasComponent, storeHas, he1, he2]
  have hcount : ¬ getRemainingPelletCount wE = 0 := by
    intro h0
    rw [getRemainingPelletCount, List.length_eq_zero] at h0
    rw [h0] at hspE
    simp at hspE
  have heatg : eatingUpdate wA = eatProcess wA eaten := by
    simp only [eatingUpdate, if_pos hplayA, hpidA, hpposA, ← heatendef]
    rw [if_neg (fun hh => hcount hh.2)]
  -- power-up stage
  have hplayE : wE.gameState = .playing := hEgs.trans hplayA
  have hdtE : wE.deltaTime = 0 := hEdt.trans (hAdt.trans hdt)
  have hinvE : ∀ j v, storeGet wE.entities.vulnerable j = some v →
      0 < v.remainingTime := by
    intro j v hv
    rcases (eatProcess_sub wA eaten j).1 with hh | hh
    · rw [hwEdef] at hv
      rw [hv] at hh
      rw [hAvuln] at hh
      exact hvulpos j v hh.symm
    · rw [hwEdef] at hv
      rw [hv] at hh
      cases hh
  obtain ⟨hPgs, hPlv, hPal, hPpos, hPgAI, hPpc, hPvuln, hPev⟩ :=
    powerUpUpdate_grant pst wE hwas hplayE hdtE hEpow hinvE
  set wP := (powerUpUpdate pst wE).1 with hwPdef
  -- collision stage
  have hpeP : getPlayerEntity wP = some pid :=
    (getPlayerEntity_congr wP wE hPal hPpc).trans hEpe
  have hGE : getGhostEntities wP = getGhostEntities wE :=
    getGhostEntities_congr wP wE hPal hPgAI
  have hCG : collidingGhosts wP = (getGhostEntities wP).filter
      (fun g => !isEatenMode wP g && areColliding wP.entities pid g) := by
    simp only [collidingGhosts, if_pos hPgs, hpeP]
  have hgmem : gid ∈ getGhostEntities wE := by
    have ho := eatProcess_other wA eaten gid hgid_out
    refine List.mem_filter.mpr ⟨?_, ?_⟩
    · have hc : wE.entities.alive.contains gid = true := by
        rw [ho.2.2.2.2.2.2.2, hAalive]
        exact List.elem_iff.mpr (List.mem_filter.mp hgA).1
      exact List.elem_iff.mp hc
    · have hmm : storeGet wE.entities.ghostAI gid =
          storeGet wA.entities.ghostAI gid := ho.2.2.1
      have hsome : (storeGet wA.entities.ghostAI gid).isSome = true := by
        simp only [getGhostMode] at hgm
        cases hx : storeGet wA.entities.ghostAI gid with
        | none => rw [hx] at hgm; cases hgm
        | some a => rfl
      simp [hasComponent, storeHas, hmm, hsome]
  have hmodeE : getGhostMode wE gid = some gm := by
    simp only [getGhostMode]
    rw [(eatProcess_other wA eaten gid hgid_out).2.2.1]
    simp only [getGhostMode] at hgm
    exact hgm
  have hmodeP : getGhostMode wP gid = some gm := by
    simp only [getGhostMode]
    rw [hPgAI]
    simp only [getGhostMode] at hmodeE
    exact hmodeE
  have hem : isEatenMode wP gid = false := by
    simp only [isEatenMode, hmodeP]
    cases gm
    · rfl
    · rfl
    · rfl
    · exact absurd rfl hgmne
  have hposPpid : storeGet wP.entities.position pid = some p := by
    rw [hPpos, (eatProcess_other wA eaten pid hpid_out).1, hApos]
    exact hppos
  have hposPgid : storeGet wP.entities.position gid = some p := by
    rw [hPpos, (eatProcess_other wA eaten gid hgid_out).1, hApos]
    exact hgpos
  have hgidP : gid ∈ collidingGhosts wP := by
    rw [hCG]
    refine List.mem_filter.mpr ⟨?_, ?_⟩
    · rw [hGE]
      exact hgmem
    · rw [hem, areColliding_same wP.entities pid gid p hposPpid hposPgid]
      rfl
  have hv_all : ∀ g ∈ collidingGhosts wP, isGhostVulnerable wP g = true := by
    intro g hgc
    rw [hCG] at hgc
    exact hPvuln g (hGE ▸ (List.mem_filter.mp hgc).1)
  have hndP : wP.entities.alive.Nodup := by
    rw [hPal]
    exact hEsub.nodup hndA
  have hnodupCG : (collidingGhosts wP).Nodup := collidingGhosts_nodup wP hndP
  have hcol : collisionUpdate wP = processCollisions wP
      (collidingGhosts wP) := by
    simp only [collisionUpdate, if_pos hPgs, hpeP]
  obtain ⟨hClv, hCgs, hCmap, hCev, _⟩ :=
    processCollisions_all_vulnerable (collidingGhosts wP) wP hnodupCG hv_all
  -- assemble the pipeline
  simp only [pipelineTick, inputUpdate_cleared, ← hwAdef, hMov, heatg,
    ← hwEdef, ← hwPdef, hcol, List.nil_append]
  refine ⟨?_, ?_, ?_⟩
  · rw [applyControllerHandlers_no_death _ _
      (fun e he => ghostEaten_not_playerDied e (hCev e he))]
    rw [hClv, hPlv, hElv, hAlv]
  · obtain ⟨e, he, hei⟩ := List.mem_map.mp (hCmap ▸ hgidP)
    exact ⟨e, List.mem_append.mpr (Or.inr he), hCev e he, hei⟩
  · intro e he
    rcases List.mem_append.mp he with h1 | h4
    · rcases List.mem_append.mp h1 with h2 | h3
      · exact eatProcess_events wA eaten e h2
      · exact hPev e h3
    · exact ghostEaten_not_playerDied e (hCev e h4)

/-- A concrete witness world for the amended C1 theorem: player 0,
non-vulnerable ghost 1 and power pellet 2 co-located at grid (1, 3), and
a surviving plain pellet 3 far away at grid (10, 10). -/
def demoWorldPipe : World :=
  { entities :=
    { nextId := 4
      alive := [0, 1, 2, 3]
      position := [(0, ⟨1, 3, 30, 70⟩), (1, ⟨1, 3, 30, 70⟩),
        (2, ⟨1, 3, 30, 70⟩), (3, ⟨10, 10, 210, 210⟩)]
      velocity := [(0, ⟨none, 2, none⟩), (1, ⟨some .up, 3 / 2, none⟩)]
      ghostAI := [(1, ⟨.blinky, .scatter, ⟨25, 0⟩⟩)]
      edible := [(2, ⟨50⟩), (3, ⟨10⟩)]
      powerUp := [(2, ⟨6000⟩)]
      vulnerable := []
      respawnable := []
      playerControlled := [(0, ())]
      collider := [] }
    gameState := .playing
    score := 0
    lives := 3
    level := 1
    powerUpTime := 0
    deltaTime := 0
    ghostEatenStreak := 0
    initialLives := 3 }

/-- Witness for the amended C1 theorem at `demoWorldPipe`. -/
theorem pipeline_eating_before_collision_witness :
    (pipelineTick ⟨demoWorldPipe, clearedInput, ⟨.scatter, false, false, []⟩,
      ⟨false, false⟩⟩ (fun _ => 0)).1.world.lives = demoWorldPipe.lives ∧
    (∃ e ∈ (pipelineTick ⟨demoWorldPipe, clearedInput,
        ⟨.scatter, false, false, []⟩, ⟨false, false⟩⟩ (fun _ => 0)).2,
      isGhostEatenEv e = true ∧ evGhostId e = 1) ∧
    (∀ e ∈ (pipelineTick ⟨demoWorldPipe, clearedInput,
        ⟨.scatter, false, false, []⟩, ⟨false, false⟩⟩ (fun _ => 0)).2,
      isPlayerDiedEv e = false) :=
  pipeline_eating_before_collision demoWorldPipe
    ⟨.scatter, false, false, []⟩ ⟨false, false⟩ (fun _ => 0) 0 1 2 3
    ⟨1, 3, 30, 70⟩ ⟨10, 10, 210, 210⟩ ⟨50⟩ ⟨10⟩
    rfl rfl (by decide) rfl rfl rfl rfl rfl (by decide) rfl rfl rfl rfl
    (by decide) rfl rfl rfl
    (by
      intro j q h
      simp only [storeGet] at h
      split at h
      · cases h
        norm_num
      · cases h)
    (by
      intro j v h
      simp only [storeGet] at h
      cases h)
    (by decide) rfl rfl
    (by norm_num [pelletColliding])

end Pac
